import Mathlib

/-!
# Verification of the LMArena bridge server

A shallow embedding of the bridge server (`src/main.py` plus the `uuid7`
helper) in Lean 4, together with theorems checking the natural-language
specification against the embedded code.

Conventions:
* Python floats used as timestamps (`time.time()`) are modelled as `ℚ`.
* Python strings are modelled as `String` / `List Char`; `len` of a Python
  string is the character count, matching `String.length` / `List.length`.
* Randomness (`secrets.randbits`) and clock sampling are modelled as
  explicit parameters.
* Fallible paths that raise a `TypeError` / `AttributeError` style exception
  (caught by the endpoint's top-level handler and turned into HTTP 500)
  are modelled with `Except Unit`.
-/

namespace LMArenaBridge

/-! ## Python string primitives -/

/-- The whitespace characters stripped by Python's `str.strip()`
(the ASCII/Latin-1 and common Unicode whitespace; exotic code points that
never occur in this protocol are omitted). -/
def isPySpace (c : Char) : Bool :=
  c = ' ' || c = '\t' || c = '\n' || c = '\r' || c = '\x0b' || c = '\x0c' ||
  c = '\x1c' || c = '\x1d' || c = '\x1e' || c = '\x1f' || c = '\x85' || c = '\xa0'

/-- Python `str.strip()` on a list of characters. -/
def pyStrip (s : List Char) : List Char :=
  ((s.dropWhile isPySpace).reverse.dropWhile isPySpace).reverse

/-- Line-break characters recognized by Python's `str.splitlines()`
(besides the two-character sequence `\r\n`, handled separately). -/
def isPyLineBreak (c : Char) : Bool :=
  c = '\n' || c = '\r' || c = '\x0b' || c = '\x0c' ||
  c = '\x1c' || c = '\x1d' || c = '\x1e' || c = '\x85' ||
  c = '\u2028' || c = '\u2029'

/-- Worker for `pySplitlines`: `acc` holds the current (reversed) line; the
fuel argument (always the length of the remaining input) makes the
`\r\n` two-character step structurally recursive. -/
def splitlinesAux : ℕ → List Char → List Char → List (List Char)
  | _, [], acc => if acc.isEmpty then [] else [acc.reverse]
  | 0, _ :: _, _ => []
  | fuel + 1, '\r' :: '\n' :: rest, acc => acc.reverse :: splitlinesAux fuel rest []
  | fuel + 1, c :: rest, acc =>
      if isPyLineBreak c then acc.reverse :: splitlinesAux fuel rest []
      else splitlinesAux fuel rest (c :: acc)

/-- Python `str.splitlines()` (without `keepends`). -/
def pySplitlines (s : List Char) : List (List Char) :=
  splitlinesAux s.length s []

/-! ## The rate limiter (`rate_limit_api_key`, `src/main.py` lines 113-140)

The per-key `RateWindow` is the list `api_key_usage[api_key_str]` of request
timestamps.  On each check the code executes

    api_key_usage[k] = [t for t in api_key_usage[k] if current_time - t < 60]
    if len(api_key_usage[k]) >= rate_limit: raise HTTPException(429)
    api_key_usage[k].append(current_time)
-/

/-- `[t for t in stamps if current_time - t < 60]` -/
def pruneWindow (now : ℚ) (stamps : List ℚ) : List ℚ :=
  stamps.filter (fun t => decide (now - t < 60))

/-- One rate-limiter check for a key whose configured limit is `rpm`:
returns whether the request is admitted together with the new stored
window. A rejected request stores the pruned window (the `raise` happens
after the list assignment and before the `append`). -/
def rateLimitCheck (rpm : ℕ) (now : ℚ) (stamps : List ℚ) : Bool × List ℚ :=
  let pruned := pruneWindow now stamps
  if rpm ≤ pruned.length then (false, pruned)
  else (true, pruned ++ [now])

/-- Run a sequence of requests (given by their arrival times) through the
rate limiter, returning the number admitted and the final window. -/
def runRequests (rpm : ℕ) (stamps : List ℚ) : List ℚ → ℕ × List ℚ
  | [] => (0, stamps)
  | t :: ts =>
      let r := rateLimitCheck rpm t stamps
      let rest := runRequests rpm r.2 ts
      ((if r.1 then 1 else 0) + rest.1, rest.2)

/-! ## JSON values and `json.loads`

A faithful model of Python's `json.loads` on the payloads this protocol
carries.  Numbers are kept as raw lexemes (no claim does arithmetic on
them); `NaN`/`Infinity`/`-Infinity` are accepted as Python's decoder does;
strings are strict (raw control characters rejected); surrogate `\uXXXX`
escapes are mapped through `Char.ofNat`. -/

inductive Json where
  | null
  | bool (b : Bool)
  | num (raw : List Char)
  | str (s : List Char)
  | arr (elems : List Json)
  | obj (fields : List (List Char × Json))

/-- JSON inter-token whitespace (Python uses exactly these four). -/
def jsonWs (c : Char) : Bool := c = ' ' || c = '\t' || c = '\n' || c = '\r'

def skipJsonWs (s : List Char) : List Char := s.dropWhile jsonWs

def isDigit (c : Char) : Bool := '0' ≤ c && c ≤ '9'

def isHexDigit (c : Char) : Bool :=
  ('0' ≤ c && c ≤ '9') || ('a' ≤ c && c ≤ 'f') || ('A' ≤ c && c ≤ 'F')

def hexVal (c : Char) : ℕ :=
  if '0' ≤ c ∧ c ≤ '9' then c.toNat - 48
  else if 'a' ≤ c ∧ c ≤ 'f' then c.toNat - 87
  else if 'A' ≤ c ∧ c ≤ 'F' then c.toNat - 55
  else 0

def parseHex4 : List Char → Option (ℕ × List Char)
  | a :: b :: c :: d :: rest =>
      if isHexDigit a && isHexDigit b && isHexDigit c && isHexDigit d then
        some (((hexVal a * 16 + hexVal b) * 16 + hexVal c) * 16 + hexVal d, rest)
      else none
  | _ => none

/-- Body of a JSON string after the opening quote. -/
def parseStrBody : ℕ → List Char → Option (List Char × List Char)
  | 0, _ => none
  | _, [] => none
  | fuel + 1, c :: rest =>
      if c = '"' then some ([], rest)
      else if c = '\\' then
        match rest with
        | [] => none
        | e :: rest1 =>
            let dec : Option (Char × List Char) :=
              if e = '"' then some ('"', rest1)
              else if e = '\\' then some ('\\', rest1)
              else if e = '/' then some ('/', rest1)
              else if e = 'b' then some ('\x08', rest1)
              else if e = 'f' then some ('\x0c', rest1)
              else if e = 'n' then some ('\n', rest1)
              else if e = 'r' then some ('\r', rest1)
              else if e = 't' then some ('\t', rest1)
              else if e = 'u' then (parseHex4 rest1).map (fun p => (Char.ofNat p.1, p.2))
              else none
            match dec with
            | none => none
            | some (ch, rest2) => (parseStrBody fuel rest2).map (fun p => (ch :: p.1, p.2))
      else if c.toNat < 32 then none
      else (parseStrBody fuel rest).map (fun p => (c :: p.1, p.2))

/-- The number lexeme regex `-?(0|[1-9][0-9]*)([.][0-9]+)?([eE][+-]?[0-9]+)?`
used by Python's decoder; returns the raw lexeme and the remaining input. -/
def parseNumber (s : List Char) : Option (List Char × List Char) :=
  let neg : List Char × List Char :=
    match s with
    | '-' :: r => (['-'], r)
    | _ => ([], s)
  match neg.2 with
  | [] => none
  | c :: _ =>
      if ¬ (isDigit c = true) then none
      else
        let intPart := if c = '0' then ['0'] else neg.2.takeWhile isDigit
        let rest1 := neg.2.drop intPart.length
        let fracState : List Char × List Char :=
          match rest1 with
          | '.' :: r =>
              let ds := r.takeWhile isDigit
              if ds.isEmpty then ([], rest1) else ('.' :: ds, r.drop ds.length)
          | _ => ([], rest1)
        let expState : List Char × List Char :=
          match fracState.2 with
          | e :: r =>
              if e = 'e' ∨ e = 'E' then
                match r with
                | sgn :: r2 =>
                    if sgn = '+' ∨ sgn = '-' then
                      let ds := r2.takeWhile isDigit
                      if ds.isEmpty then ([], fracState.2)
                      else (e :: sgn :: ds, r2.drop ds.length)
                    else
                      let ds := r.takeWhile isDigit
                      if ds.isEmpty then ([], fracState.2)
                      else (e :: ds, r.drop ds.length)
                | [] => ([], fracState.2)
              else ([], fracState.2)
          | [] => ([], fracState.2)
        some (neg.1 ++ intPart ++ fracState.1 ++ expState.1, expState.2)

mutual

def parseValue : ℕ → List Char → Option (Json × List Char)
  | 0, _ => none
  | fuel + 1, s =>
      match skipJsonWs s with
      | 'n' :: 'u' :: 'l' :: 'l' :: r => some (.null, r)
      | 't' :: 'r' :: 'u' :: 'e' :: r => some (.bool true, r)
      | 'f' :: 'a' :: 'l' :: 's' :: 'e' :: r => some (.bool false, r)
      | 'N' :: 'a' :: 'N' :: r => some (.num ['N', 'a', 'N'], r)
      | 'I' :: 'n' :: 'f' :: 'i' :: 'n' :: 'i' :: 't' :: 'y' :: r =>
          some (.num ['I', 'n', 'f', 'i', 'n', 'i', 't', 'y'], r)
      | '-' :: 'I' :: 'n' :: 'f' :: 'i' :: 'n' :: 'i' :: 't' :: 'y' :: r =>
          some (.num ['-', 'I', 'n', 'f', 'i', 'n', 'i', 't', 'y'], r)
      | '"' :: r => (parseStrBody (r.length + 1) r).map (fun p => (.str p.1, p.2))
      | '[' :: r =>
          (match skipJsonWs r with
           | ']' :: r1 => some (.arr [], r1)
           | _ => (parseArrItems fuel r).map (fun p => (.arr p.1, p.2)))
      | '{' :: r =>
          (match skipJsonWs r with
           | '}' :: r1 => some (.obj [], r1)
           | _ => (parseObjMembers fuel r).map (fun p => (.obj p.1, p.2)))
      | s1 => (parseNumber s1).map (fun p => (.num p.1, p.2))

def parseArrItems : ℕ → List Char → Option (List Json × List Char)
  | 0, _ => none
  | fuel + 1, s =>
      match parseValue fuel s with
      | none => none
      | some (v, r) =>
          match skipJsonWs r with
          | ',' :: r1 =>
              (parseArrItems fuel r1).map (fun p => (v :: p.1, p.2))
          | ']' :: r1 => some ([v], r1)
          | _ => none

def parseObjMembers : ℕ → List Char → Option (List (List Char × Json) × List Char)
  | 0, _ => none
  | fuel + 1, s =>
      match skipJsonWs s with
      | '"' :: r =>
          match parseStrBody (r.length + 1) r with
          | none => none
          | some (key, r1) =>
              match skipJsonWs r1 with
              | ':' :: r2 =>
                  match parseValue fuel r2 with
                  | none => none
                  | some (v, r3) =>
                      match skipJsonWs r3 with
                      | ',' :: r4 =>
                          (parseObjMembers fuel r4).map (fun p => ((key, v) :: p.1, p.2))
                      | '}' :: r4 => some ([(key, v)], r4)
                      | _ => none
              | _ => none
      | _ => none

end

/-- Python `json.loads`: parse one value, then require only whitespace to
remain. -/
def jsonLoads (s : List Char) : Option Json :=
  match parseValue (s.length + 1) s with
  | some (v, rest) => if skipJsonWs rest = [] then some v else none
  | none => none

/-- `dict.get` on a decoded JSON object: Python's dict keeps the last value
for a duplicated key. -/
def jsonGet (fields : List (List Char × Json)) (key : List Char) : Option Json :=
  (fields.reverse.find? (fun p => decide (p.1 = key))).map Prod.snd

/-! ## The stream decoder (`src/main.py` lines 1034-1086)

The loop over `response.text.splitlines()`, dispatching on the prefixes
`a0:`, `a3:`, `ad:`.  The two paths where the Python code would raise a
`TypeError`/`AttributeError` (an `a0:` payload that is valid JSON but not a
string, an `ad:` payload that is valid JSON but not an object) are modelled
as `Except.error ()` — at the endpoint they surface as HTTP 500. -/

/-- The error candidate captured from an `a3:` line: the payload JSON-decoded,
or the raw payload text when decoding fails. -/
inductive ErrMsg where
  | parsed (j : Json)
  | raw (s : List Char)

structure DecodeState where
  text : List Char
  errorMessage : Option ErrMsg
  finishReason : Option Json

def initDecodeState : DecodeState := ⟨[], none, none⟩

def processLine (st : DecodeState) (rawLine : List Char) : Except Unit DecodeState :=
  let line := pyStrip rawLine
  if line = [] then .ok st
  else if line.take 3 = ['a', '0', ':'] then
    match jsonLoads (line.drop 3) with
    | some (.str s) => .ok { st with text := st.text ++ s }
    | some _ => .error ()
    | none => .ok st
  else if line.take 3 = ['a', '3', ':'] then
    match jsonLoads (line.drop 3) with
    | some j => .ok { st with errorMessage := some (.parsed j) }
    | none => .ok { st with errorMessage := some (.raw (line.drop 3)) }
  else if line.take 3 = ['a', 'd', ':'] then
    match jsonLoads (line.drop 3) with
    | some (.obj fields) =>
        .ok { st with finishReason :=
                jsonGet fields ['f', 'i', 'n', 'i', 's', 'h', 'R', 'e', 'a', 's', 'o', 'n'] }
    | some _ => .error ()
    | none => .ok st
  else .ok st

def decodeStream (body : List Char) : Except Unit DecodeState :=
  (pySplitlines body).foldlM processLine initDecodeState

/-! ### Per-line contribution functions used to state the decoder theorems -/

/-- The text a single line contributes to the accumulated response text. -/
def a0Contribution (rawLine : List Char) : List Char :=
  let line := pyStrip rawLine
  if line = [] then []
  else if line.take 3 = ['a', '0', ':'] then
    match jsonLoads (line.drop 3) with
    | some (.str s) => s
    | _ => []
  else []

/-- The error-candidate update a single line performs, if any. -/
def a3Update (rawLine : List Char) : Option ErrMsg :=
  let line := pyStrip rawLine
  if line = [] then none
  else if line.take 3 = ['a', '0', ':'] then none
  else if line.take 3 = ['a', '3', ':'] then
    match jsonLoads (line.drop 3) with
    | some j => some (.parsed j)
    | none => some (.raw (line.drop 3))
  else none

/-- The finish-reason overwrite a single line performs, if any
(`some v` means the stored finish reason becomes `v`, possibly `none`). -/
def adUpdate (rawLine : List Char) : Option (Option Json) :=
  let line := pyStrip rawLine
  if line = [] then none
  else if line.take 3 = ['a', '0', ':'] then none
  else if line.take 3 = ['a', '3', ':'] then none
  else if line.take 3 = ['a', 'd', ':'] then
    match jsonLoads (line.drop 3) with
    | some (.obj fields) =>
        some (jsonGet fields ['f', 'i', 'n', 'i', 's', 'h', 'R', 'e', 'a', 's', 'o', 'n'])
    | _ => none
  else none

/-- The error candidate after a whole stream: the last `a3:` update wins. -/
def streamErrorMessage (lines : List (List Char)) : Option ErrMsg :=
  lines.foldl (fun cur l => match a3Update l with | some m => some m | none => cur) none

/-- The finish reason after a whole stream: the last valid `ad:` object wins. -/
def streamFinishReason (lines : List (List Char)) : Option Json :=
  lines.foldl (fun cur l => match adUpdate l with | some v => v | none => cur) none


/-! ## Model catalog resolution (`src/main.py` lines 852-868) -/

structure ModelRecord where
  id : Option String
  publicName : Option String
deriving DecidableEq

/-- The resolution loop: the first catalog entry whose `publicName` equals
the requested name wins (the Python loop `break`s), yielding its possibly
absent `id`. -/
def findModelId : List ModelRecord → String → Option String
  | [], _ => none
  | m :: ms, name =>
      if m.publicName = some name then m.id else findModelId ms name

/-! ## Conversation sessions and upstream payloads (lines 894-1013) -/

structure Msg where
  role : String
  content : String
deriving DecidableEq

/-- A `chat_sessions` entry.  Sessions created by this code store exactly
`conversation_id`, `last_message_id` and `model`; `first_user_msg_id` is
read back through `dict.get` and so is optional (this code never writes
it). -/
structure Session where
  conversation_id : String
  last_message_id : String
  first_user_msg_id : Option String
  model : String
deriving DecidableEq

structure Node where
  id : String
  role : String
  content : String
  reasoning : Option String
  experimental_attachments : List String
  parentMessageIds : List String
  participantPosition : String
  modelId : Option String
  evaluationSessionId : String
  status : String
  failureReason : Option String
deriving DecidableEq

structure UpstreamPayload where
  id : String
  mode : String
  modelAId : String
  userMessageId : String
  modelAMessageId : String
  messages : List Node
  modality : String
deriving DecidableEq

/-- The payload for a brand-new conversation (`create-evaluation`); the
three `uuid7()` draws are `gen 0` (session id), `gen 1` (user message id),
`gen 2` (assistant message id). -/
def buildNewPayload (gen : ℕ → String) (modelId prompt : String) :
    UpstreamPayload × String :=
  let session_id := gen 0
  let user_msg_id := gen 1
  let model_msg_id := gen 2
  ({ id := session_id, mode := "direct", modelAId := modelId,
     userMessageId := user_msg_id, modelAMessageId := model_msg_id,
     messages := [
       { id := user_msg_id, role := "user", content := prompt, reasoning := none,
         experimental_attachments := [], parentMessageIds := [],
         participantPosition := "a", modelId := none,
         evaluationSessionId := session_id, status := "pending",
         failureReason := none },
       { id := model_msg_id, role := "assistant", content := "",
         reasoning := some "", experimental_attachments := [],
         parentMessageIds := [user_msg_id], participantPosition := "a",
         modelId := some modelId, evaluationSessionId := session_id,
         status := "pending", failureReason := none }],
     modality := "chat" },
   "https://lmarena.ai/nextjs-api/stream/create-evaluation")

/-- A node rebuilt from one history message. -/
def mkHistoryNode (msg_id : String) (m : Msg) (parents : List String)
    (modelId sessConvId : String) : Node :=
  { id := msg_id, role := m.role, content := m.content,
    reasoning := if m.role = "assistant" then some "" else none,
    experimental_attachments := [],
    parentMessageIds := parents,
    participantPosition := "a",
    modelId := if m.role = "assistant" then some modelId else none,
    evaluationSessionId := sessConvId,
    status := if m.role = "assistant" then "success" else "pending",
    failureReason := none }

/-- The `for i, msg in enumerate(messages[:-1])` loop.  Iteration `i` draws
`gen (2 + i)` (for `i = 0` the draw happens eagerly as the `dict.get`
default and is used only when `first_user_msg_id` is absent); each node
chains to the previously appended node's id. -/
def historyLoop (gen : ℕ → String) (firstId : Option String)
    (modelId sessConvId : String) : List Msg → ℕ → List Node → List Node
  | [], _, acc => acc
  | m :: ms, i, acc =>
      let msg_id := if 0 < i then gen (2 + i) else firstId.getD (gen 2)
      let parents :=
        match acc.getLast? with
        | some prev => [prev.id]
        | none => []
      historyLoop gen firstId modelId sessConvId ms (i + 1)
        (acc ++ [mkHistoryNode msg_id m parents modelId sessConvId])

/-- The payload for a follow-up turn (`post-to-evaluation/{session-id}`);
the draws are `gen 0` (new user message id), `gen 1` (new assistant message
id), then one draw per history message inside `historyLoop` (when the
history is empty the `dict.get` default for `last_message_id` draws
`gen 2`, unused because stored sessions always carry that key). -/
def buildExistingPayload (gen : ℕ → String) (sess : Session)
    (modelId prompt : String) (history : List Msg) :
    UpstreamPayload × String :=
  let user_msg_id := gen 0
  let model_msg_id := gen 1
  let conversation_messages :=
    historyLoop gen sess.first_user_msg_id modelId sess.conversation_id history 0 []
  let last_msg_id :=
    match conversation_messages.getLast? with
    | some n => n.id
    | none => sess.last_message_id
  let userNode : Node :=
    { id := user_msg_id, role := "user", content := prompt, reasoning := none,
      experimental_attachments := [], parentMessageIds := [last_msg_id],
      participantPosition := "a", modelId := none,
      evaluationSessionId := sess.conversation_id, status := "pending",
      failureReason := none }
  let asstNode : Node :=
    { id := model_msg_id, role := "assistant", content := "", reasoning := some "",
      experimental_attachments := [], parentMessageIds := [user_msg_id],
      participantPosition := "a", modelId := some modelId,
      evaluationSessionId := sess.conversation_id, status := "pending",
      failureReason := none }
  ({ id := sess.conversation_id, mode := "direct", modelAId := modelId,
     userMessageId := user_msg_id, modelAMessageId := model_msg_id,
     messages := conversation_messages ++ [userNode, asstNode],
     modality := "chat" },
   "https://lmarena.ai/nextjs-api/stream/post-to-evaluation/" ++ sess.conversation_id)

/-! ## The `/api/v1/chat/completions` endpoint (lines 831-1184)

The upstream HTTP exchange (`httpx` POST) is abstracted by an
`UpstreamResult` parameter: a 2xx response with its body text, a non-2xx
response (`raise_for_status` raises `HTTPStatusError`), or a timeout.
Randomness and clock sampling are supplied through `EndpointCtx`. -/

inductive UpstreamResult where
  | ok (body : List Char)
  | httpError (status : ℕ) (body : List Char)
  | timeout

/-- The endpoint's error taxonomy; `httpStatus` gives the HTTP code of the
`HTTPException` raised on each path. -/
inductive ApiError where
  | badRequest (detail : String)
  | modelNotFound (name : String)
  | noAuthToken
  | upstreamStatus (status : ℕ) (body : List Char)
  | upstreamDecode (msg : Option ErrMsg)
  | upstreamTimeout
  | internalCrash

def ApiError.httpStatus : ApiError → ℕ
  | .badRequest _ => 400
  | .modelNotFound _ => 404
  | .noAuthToken => 500
  | .upstreamStatus _ _ => 502
  | .upstreamDecode _ => 502
  | .upstreamTimeout => 504
  | .internalCrash => 500

structure Choice where
  index : ℕ
  role : String
  content : List Char
  finish_reason : String
deriving DecidableEq

structure Usage where
  prompt_tokens : ℕ
  completion_tokens : ℕ
  total_tokens : ℕ
deriving DecidableEq

structure Completion where
  id : String
  object : String
  created : ℕ
  model : String
  conversation_id : String
  choices : List Choice
  usage : Usage
deriving DecidableEq

/-- Request-scoped inputs: the catalog, the authenticated key, the config
auth token, and the identifiers/timestamps sampled during the request
(`gen n` is the `n`-th `uuid7()` draw of the taken branch). -/
structure EndpointCtx where
  models : List ModelRecord
  apiKeyStr : String
  authToken : String
  genConv : String
  gen : ℕ → String
  cmplId : String
  created : ℕ

/-- Process-wide mutable state: the session registry plus the in-memory and
persisted usage counters. -/
structure ServerState where
  sessions : String × String → Option Session
  memStats : String → ℕ
  fileStats : String → ℕ

structure ChatRequest where
  model : Option String
  messages : List Msg
  conversation_id : Option String

/-- Lines 870-873: `model_usage_stats[name] += 1`, then `get_config()`
(which rebinds the in-memory stats from the persisted document), then
`save_config(config)` (which persists the in-memory stats). -/
def bumpStats (name : String) (st : ServerState) : ServerState :=
  let afterIncrement :=
    { st with memStats := fun n => if n = name then st.memStats n + 1 else st.memStats n }
  let afterGetConfig := { afterIncrement with memStats := afterIncrement.fileStats }
  let afterSaveConfig := { afterGetConfig with fileStats := afterGetConfig.memStats }
  afterSaveConfig

/-- Lines 1018-1105 up to the session update: classify the upstream result
and decode the body; an empty accumulated text fails with 502 carrying the
captured `a3:` message if any. -/
def upstreamExchange (upstream : UpstreamResult) : Except ApiError DecodeState :=
  match upstream with
  | .httpError code body => .error (.upstreamStatus code body)
  | .timeout => .error .upstreamTimeout
  | .ok body =>
      match decodeStream body with
      | .error _ => .error .internalCrash
      | .ok dst =>
          if dst.text = [] then .error (.upstreamDecode dst.errorMessage)
          else .ok dst

/-- Lines 1121-1140: the OpenAI-shaped completion object. -/
def mkCompletion (ctx : EndpointCtx) (modelName conv prompt : String)
    (dst : DecodeState) : Completion :=
  { id := ctx.cmplId, object := "chat.completion", created := ctx.created,
    model := modelName, conversation_id := conv,
    choices := [{ index := 0, role := "assistant", content := pyStrip dst.text,
                  finish_reason := "stop" }],
    usage := { prompt_tokens := prompt.length,
               completion_tokens := dst.text.length,
               total_tokens := prompt.length + dst.text.length } }

/-- The `/api/v1/chat/completions` handler after authentication and rate
limiting, returning the HTTP outcome and the new server state. -/
def api_chat_completions (ctx : EndpointCtx) (req : ChatRequest)
    (upstream : UpstreamResult) (st : ServerState) :
    Except ApiError Completion × ServerState :=
  match req.model with
  | none => (.error (.badRequest "Missing model or messages in request body"), st)
  | some name =>
      if name = "" ∨ req.messages = [] then
        (.error (.badRequest "Missing model or messages in request body"), st)
      else
        match findModelId ctx.models name with
        | none => (.error (.modelNotFound name), st)
        | some mid =>
            if mid = "" then (.error (.modelNotFound name), st)
            else
              let st1 := bumpStats name st
              let prompt := ((req.messages.getLast?).map Msg.content).getD ""
              if prompt = "" then
                (.error (.badRequest "Last message must have content"), st1)
              else
                let conv := req.conversation_id.getD ctx.genConv
                if pyStrip ctx.authToken.data = [] then (.error .noAuthToken, st1)
                else
                  match st1.sessions (ctx.apiKeyStr, conv) with
                  | none =>
                      let _pu := buildNewPayload ctx.gen mid prompt
                      match upstreamExchange upstream with
                      | .error e => (.error e, st1)
                      | .ok dst =>
                          let newSess : Session :=
                            { conversation_id := ctx.gen 0,
                              last_message_id := ctx.gen 2,
                              first_user_msg_id := none,
                              model := name }
                          (.ok (mkCompletion ctx name conv prompt dst),
                           { st1 with sessions := fun k =>
                               if k = (ctx.apiKeyStr, conv) then some newSess
                               else st1.sessions k })
                  | some sess =>
                      let _pu := buildExistingPayload ctx.gen sess mid prompt
                        req.messages.dropLast
                      match upstreamExchange upstream with
                      | .error e => (.error e, st1)
                      | .ok dst =>
                          let updSess : Session :=
                            { sess with last_message_id := ctx.gen 1 }
                          (.ok (mkCompletion ctx name conv prompt dst),
                           { st1 with sessions := fun k =>
                               if k = (ctx.apiKeyStr, conv) then some updSess
                               else st1.sessions k })

/-! ## `uuid7` (`uuid7_impl.py` lines 5-31, duplicated in `src/main.py`
lines 20-34)

The clock sample `int(time.time() * 1000)` and the two random draws
`secrets.randbits(12)` / `secrets.randbits(62)` are the parameters `ts`,
`ra`, `rb`. -/

def hexDigitChar (n : ℕ) : Char :=
  if n < 10 then Char.ofNat (48 + n) else Char.ofNat (87 + n)

/-- Fixed-width lowercase hex rendering, most significant digit first. -/
def toHex : ℕ → ℕ → List Char
  | 0, _ => []
  | w + 1, n => toHex w (n / 16) ++ [hexDigitChar (n % 16)]

/-- Minimal lowercase hex digits of `n`, most significant first (the first
argument is fuel, instantiated with `n` itself). -/
def minHexAux : ℕ → ℕ → List Char
  | 0, _ => []
  | _, 0 => []
  | fuel + 1, n => minHexAux fuel (n / 16) ++ [hexDigitChar (n % 16)]

/-- Python `f"{n:032x}"`: minimal lowercase hex digits, left-padded with
zeros to width 32. -/
def pyHex032 (n : ℕ) : List Char :=
  let ds := if n = 0 then ['0'] else minHexAux n n
  List.replicate (32 - ds.length) '0' ++ ds

/-- The 128-bit integer assembled by `uuid7()`:
`ts << 80`, or-ed with `(0x7000 | ra) << 64`, or-ed with
`0x8000000000000000 | rb`. -/
def uuid7_int (ts ra rb : ℕ) : ℕ :=
  ((ts <<< 80) ||| ((0x7000 ||| ra) <<< 64)) ||| (0x8000000000000000 ||| rb)

/-- The rendered identifier:
`hex[0:8]-hex[8:12]-hex[12:16]-hex[16:20]-hex[20:32]`. -/
def uuid7_render (ts ra rb : ℕ) : List Char :=
  let hex := pyHex032 (uuid7_int ts ra rb)
  hex.take 8 ++ '-' :: ((hex.drop 8).take 4) ++ '-' :: ((hex.drop 12).take 4)
    ++ '-' :: ((hex.drop 16).take 4) ++ '-' :: ((hex.drop 20).take 12)

/-- Value of a list of hex digits, most significant first. -/
def parseHexDigits (l : List Char) : ℕ :=
  l.foldl (fun acc c => acc * 16 + hexVal c) 0

/-! ## Arena origin detection

Modelled from the spec: the functions `_detect_arena_origin` and
`_arena_origin_candidates` are exercised by
`tests/test_arena_origin_and_cookie_scoping.py` but their defining module
is not part of this source tree; the definitions below follow spec §4.2 and
§8 together with the expectations recorded in that test. -/

/-- Split a URL at the first `://`, returning scheme and remainder. -/
def findSchemeSep : List Char → Option (List Char × List Char)
  | [] => none
  | ':' :: '/' :: '/' :: rest => some ([], rest)
  | c :: rest => (findSchemeSep rest).map (fun p => (c :: p.1, p.2))

/-- Modelled from the spec: `_detect_arena_origin` — a null/blank/
`about:blank` input yields the canonical production origin; a URL whose
host is the production domain or its sibling alias (optionally
`www.`-prefixed) is normalized to that origin; any other URL yields its own
`scheme://host` origin unchanged. -/
def detectArenaOrigin (url : Option String) : String :=
  match url with
  | none => "https://lmarena.ai"
  | some u =>
      if u = "" ∨ u = "about:blank" then "https://lmarena.ai"
      else
        match findSchemeSep u.data with
        | none => "https://lmarena.ai"
        | some (scheme, rest) =>
            let host := rest.takeWhile (fun c => !(c = '/' || c = '?' || c = '#'))
            if host = "lmarena.ai".data ∨ host = "www.lmarena.ai".data then
              "https://lmarena.ai"
            else if host = "arena.ai".data ∨ host = "www.arena.ai".data then
              "https://arena.ai"
            else String.mk (scheme ++ ':' :: '/' :: '/' :: host)

/-- Modelled from the spec: the sibling alias of a detected origin (the
production origin and its bare-domain alias are each other's siblings; for
any other origin the spec leaves the alias unspecified and the canonical
production origin is used). -/
def siblingArenaOrigin (origin : String) : String :=
  if origin = "https://lmarena.ai" then "https://arena.ai"
  else if origin = "https://arena.ai" then "https://lmarena.ai"
  else "https://lmarena.ai"

/-- Modelled from the spec: `_arena_origin_candidates(url)` — the detected
origin first, its sibling alias second. -/
def arenaOriginCandidates (url : Option String) : List String :=
  let primary := detectArenaOrigin url
  [primary, siblingArenaOrigin primary]

/-! ## Concrete fixtures used by witnesses and counterexamples -/

def exCatalog : List ModelRecord := [⟨some "model-id-1", some "my-model"⟩]

def exCtx : EndpointCtx :=
  { models := exCatalog, apiKeyStr := "sk-lmab-key", authToken := "token",
    genConv := "conv-generated", gen := fun n => "uuid" ++ toString n,
    cmplId := "chatcmpl-1", created := 1700000000 }

def exState : ServerState :=
  { sessions := fun _ => none, memStats := fun _ => 0, fileStats := fun _ => 0 }

def exReq : ChatRequest :=
  { model := some "my-model", messages := [⟨"user", "hi"⟩],
    conversation_id := some "c1" }

def exBody : List Char := "a0:\"Hi \"".data

/-! ## Proof-side description of the rebuilt history chain

`historyChain` is a non-accumulating description of `historyLoop`, used
only to state and prove the node-list characterization. -/

def historyNodeId (gen : ℕ → String) (fid : Option String) (k : ℕ) : String :=
  if 0 < k then gen (2 + k) else fid.getD (gen 2)

def historyChain (gen : ℕ → String) (fid : Option String) (mid cid : String) :
    List Msg → ℕ → Option String → List Node
  | [], _, _ => []
  | m :: ms, i, prev =>
      mkHistoryNode (historyNodeId gen fid i) m
          (match prev with | some p => [p] | none => []) mid cid ::
        historyChain gen fid mid cid ms (i + 1) (some (historyNodeId gen fid i))

/-! # Theorems -/

/-! ## C1: the rate limiter -/

theorem pruneWindow_eq_self {now : ℚ} {stamps : List ℚ}
    (h : ∀ t ∈ stamps, now - t < 60) : pruneWindow now stamps = stamps := by
  unfold pruneWindow
  exact List.filter_eq_self.mpr (fun t ht => decide_eq_true (h t ht))

theorem pruneWindow_length_le (now : ℚ) (stamps : List ℚ) :
    (pruneWindow now stamps).length ≤ stamps.length :=
  List.length_filter_le _ _

/-- Core counting lemma: if all stored stamps stay within 60s of every
request time, and all request times are within 60s of each other, then the
number of admitted requests is exactly `min (number of requests) (rpm -
stored)`. -/
theorem runRequests_count (rpm : ℕ) :
    ∀ (reqs stamps : List ℚ),
      (∀ s ∈ stamps, ∀ t ∈ reqs, t - s < 60) →
      (∀ t ∈ reqs, ∀ t' ∈ reqs, t' - t < 60) →
      (runRequests rpm stamps reqs).1 = min reqs.length (rpm - stamps.length) := by
  intro reqs
  induction reqs with
  | nil => intro stamps _ _; simp [runRequests]
  | cons t ts ih =>
      intro stamps hst hre
      have hkeep : pruneWindow t stamps = stamps :=
        pruneWindow_eq_self (fun s hs => hst s hs t (by simp))
      by_cases hfull : rpm ≤ stamps.length
      · have hcheck : rateLimitCheck rpm t stamps = (false, stamps) := by
          simp [rateLimitCheck, hkeep, hfull]
        have ihr := ih stamps
          (fun s hs u hu => hst s hs u (by simp [hu]))
          (fun u hu u' hu' => hre u (by simp [hu]) u' (by simp [hu']))
        simp only [runRequests, hcheck]
        simp only [ihr, Bool.false_eq_true, if_false, List.length_cons]
        omega
      · have hcheck : rateLimitCheck rpm t stamps = (true, stamps ++ [t]) := by
          simp [rateLimitCheck, hkeep, hfull]
        have hst' : ∀ s ∈ stamps ++ [t], ∀ u ∈ ts, u - s < 60 := by
          intro s hs u hu
          rcases List.mem_append.mp hs with h | h
          · exact hst s h u (by simp [hu])
          · simp only [List.mem_singleton] at h
            subst h
            exact hre s (by simp) u (by simp [hu])
        have ihr := ih (stamps ++ [t]) hst'
          (fun u hu u' hu' => hre u (by simp [hu]) u' (by simp [hu']))
        have hlen : (stamps ++ [t]).length = stamps.length + 1 := by simp
        simp only [runRequests, hcheck, if_true, List.length_cons]
        rw [ihr, hlen]
        omega

theorem mem_pruneWindow {now t : ℚ} {stamps : List ℚ} :
    t ∈ pruneWindow now stamps ↔ t ∈ stamps ∧ now - t < 60 := by
  simp [pruneWindow]

/-- C1. For every request bearing a valid API key whose configured
requests-per-minute limit is `rpm`, the rate limiter first discards all
timestamps 60 seconds old or older, then rejects (recording nothing) when at
least `rpm` timestamps remain and otherwise appends the current time and
admits; consequently exactly `rpm` requests are admitted in any rolling
60-second window, the next is rejected, and capacity frees up by exactly one
when the oldest timestamp ages past 60 seconds. -/
theorem claim_C1_rate_limiter (rpm : ℕ) (now now' lo : ℚ) (stamps reqs : List ℚ) :
    (∀ t ∈ stamps, 60 ≤ now - t → t ∉ (rateLimitCheck rpm now stamps).2) ∧
    (∀ t ∈ (rateLimitCheck rpm now stamps).2, now - t < 60) ∧
    ((rateLimitCheck rpm now stamps).1 = true ↔ (pruneWindow now stamps).length < rpm) ∧
    ((rateLimitCheck rpm now stamps).1 = false →
      (rateLimitCheck rpm now stamps).2 = pruneWindow now stamps) ∧
    ((rateLimitCheck rpm now stamps).1 = true →
      (rateLimitCheck rpm now stamps).2 = pruneWindow now stamps ++ [now]) ∧
    ((∀ t ∈ reqs, lo ≤ t ∧ t < lo + 60) →
      (runRequests rpm [] reqs).1 = min reqs.length rpm) ∧
    (∀ t₀ rest, pruneWindow now stamps = t₀ :: rest → rest.length + 1 = rpm →
      now ≤ now' → 60 ≤ now' - t₀ → (∀ t ∈ rest, now' - t < 60) →
      (rateLimitCheck rpm now stamps).1 = false ∧
        (rateLimitCheck rpm now' stamps).1 = true) := by
  have hresult : (rateLimitCheck rpm now stamps).2 = pruneWindow now stamps ∨
      (rateLimitCheck rpm now stamps).2 = pruneWindow now stamps ++ [now] := by
    unfold rateLimitCheck
    by_cases h : rpm ≤ (pruneWindow now stamps).length <;> simp [h]
  refine ⟨?_, ?_, ?_, ?_, ?_, ?_, ?_⟩
  · intro t ht hold hmem
    have hfresh : now - t < 60 := by
      rcases hresult with h | h
      · rw [h] at hmem
        exact (mem_pruneWindow.mp hmem).2
      · rw [h] at hmem
        rcases List.mem_append.mp hmem with h' | h'
        · exact (mem_pruneWindow.mp h').2
        · simp only [List.mem_singleton] at h'
          subst h'
          linarith
    linarith
  · intro t hmem
    rcases hresult with h | h
    · rw [h] at hmem
      exact (mem_pruneWindow.mp hmem).2
    · rw [h] at hmem
      rcases List.mem_append.mp hmem with h' | h'
      · exact (mem_pruneWindow.mp h').2
      · simp only [List.mem_singleton] at h'
        subst h'
        norm_num
  · unfold rateLimitCheck
    by_cases h : rpm ≤ (pruneWindow now stamps).length
    · simp only [if_pos h, Prod.fst]
      constructor
      · intro hf
        exact absurd hf (by simp)
      · intro hlt
        omega
    · simp only [if_neg h]
      constructor
      · intro _
        omega
      · intro _
        trivial
  · intro hrej
    unfold rateLimitCheck at hrej ⊢
    by_cases h : rpm ≤ (pruneWindow now stamps).length
    · rw [if_pos h]
    · simp_all
  · intro hadm
    unfold rateLimitCheck at hadm ⊢
    by_cases h : rpm ≤ (pruneWindow now stamps).length
    · simp_all
    · rw [if_neg h]
  · intro hwin
    have := runRequests_count rpm reqs []
      (by intro s hs; simp at hs)
      (by
        intro t ht t' ht'
        have h1 := hwin t ht
        have h2 := hwin t' ht'
        linarith)
    simpa using this
  · intro t₀ rest hpr hlen hmono hold hfreshr
    have hrej : (rateLimitCheck rpm now stamps).1 = false := by
      unfold rateLimitCheck
      have : rpm ≤ (pruneWindow now stamps).length := by
        rw [hpr]
        simp
        omega
      simp [this]
    refine ⟨hrej, ?_⟩
    have hcomp : pruneWindow now' stamps =
        (pruneWindow now stamps).filter (fun t => decide (now' - t < 60)) := by
      unfold pruneWindow
      rw [List.filter_filter]
      apply List.filter_congr
      intro a _
      by_cases h : now' - a < 60
      · have h' : now - a < 60 := by linarith
        simp [h, h']
      · simp [h]
    have hpr' : pruneWindow now' stamps = rest := by
      rw [hcomp, hpr]
      have ht₀ : ¬ (now' - t₀ < 60) := by linarith
      simp only [List.filter_cons, decide_eq_true_eq, ht₀, if_false]
      exact List.filter_eq_self.mpr (fun t ht => decide_eq_true (hfreshr t ht))
    unfold rateLimitCheck
    rw [hpr']
    have : ¬ rpm ≤ rest.length := by omega
    simp [this]

/-- Witness for C1 at concrete inputs: with limit 2 and stored stamps
`[41, 70]` at time 100 the window is full and the request is rejected; at
time 101 the oldest stamp (41) has aged past 60s and the request is
admitted; and of three requests arriving inside one 60-second window with
limit 2, exactly `min 3 2 = 2` are admitted. -/
theorem claim_C1_rate_limiter_witness :
    (rateLimitCheck 2 100 [41, 70]).1 = false ∧
    (rateLimitCheck 2 101 [41, 70]).1 = true ∧
    (runRequests 2 [] [0, 1, 2]).1 = min 3 2 := by
  have h := claim_C1_rate_limiter 2 100 101 0 [41, 70] [0, 1, 2]
  have hpr : pruneWindow 100 [41, 70] = [41, 70] := by
    unfold pruneWindow
    norm_num
  have h6 := h.2.2.2.2.2.2 41 [70] hpr (by norm_num) (by norm_num)
    (by norm_num) (by norm_num)
  have h5 := h.2.2.2.2.2.1 (by norm_num)
  refine ⟨h6.1, h6.2, by simpa using h5⟩

/-! ## Decoder lemmas -/

theorem processLine_ok_spec {st₀ st₁ : DecodeState} {a : List Char}
    (h : processLine st₀ a = .ok st₁) :
    st₁.text = st₀.text ++ a0Contribution a ∧
    st₁.errorMessage = (match a3Update a with
      | some m => some m
      | none => st₀.errorMessage) ∧
    st₁.finishReason = (match adUpdate a with
      | some v => v
      | none => st₀.finishReason) := by
  simp only [processLine] at h
  simp only [a0Contribution, a3Update, adUpdate]
  split_ifs at h ⊢ with h0 hA0 hA3 hAd
  · injection h with h
    subst h
    simp
  · cases hj : jsonLoads ((pyStrip a).drop 3) with
    | none =>
        rw [hj] at h
        injection h with h
        subst h
        simp [hj]
    | some j =>
        rw [hj] at h
        cases j with
        | str s =>
            injection h with h
            subst h
            simp [hj]
        | null => simp at h
        | bool b => simp at h
        | num raw => simp at h
        | arr elems => simp at h
        | obj fields => simp at h
  · cases hj : jsonLoads ((pyStrip a).drop 3) with
    | none =>
        rw [hj] at h
        injection h with h
        subst h
        simp [hj]
    | some j =>
        rw [hj] at h
        injection h with h
        subst h
        simp [hj]
  · cases hj : jsonLoads ((pyStrip a).drop 3) with
    | none =>
        rw [hj] at h
        injection h with h
        subst h
        simp [hj]
    | some j =>
        rw [hj] at h
        cases j with
        | obj fields =>
            injection h with h
            subst h
            simp [hj]
        | null => simp at h
        | bool b => simp at h
        | num raw => simp at h
        | str s => simp at h
        | arr elems => simp at h
  · injection h with h
    subst h
    simp

theorem processLines_ok_spec :
    ∀ (lines : List (List Char)) (st₀ st₁ : DecodeState),
      lines.foldlM processLine st₀ = .ok st₁ →
      st₁.text = st₀.text ++ (lines.map a0Contribution).flatten ∧
      st₁.errorMessage = lines.foldl (fun cur l => match a3Update l with
        | some m => some m
        | none => cur) st₀.errorMessage ∧
      st₁.finishReason = lines.foldl (fun cur l => match adUpdate l with
        | some v => v
        | none => cur) st₀.finishReason := by
  intro lines
  induction lines with
  | nil =>
      intro st₀ st₁ h
      simp only [List.foldlM_nil] at h
      injection h with h
      subst h
      simp
  | cons a ls ih =>
      intro st₀ st₁ h
      rw [List.foldlM_cons] at h
      cases hp : processLine st₀ a with
      | error e =>
          rw [hp] at h
          have h2 : (Except.error e : Except Unit DecodeState) = .ok st₁ := h
          cases h2
      | ok s1 =>
          rw [hp] at h
          have h1 : ls.foldlM processLine s1 = .ok st₁ := h
          obtain ⟨ht, he, hf⟩ := ih s1 st₁ h1
          obtain ⟨ht1, he1, hf1⟩ := processLine_ok_spec hp
          refine ⟨?_, ?_, ?_⟩
          · rw [ht, ht1, List.map_cons, List.flatten_cons, List.append_assoc]
          · rw [he, he1, List.foldl_cons]
          · rw [hf, hf1, List.foldl_cons]

/-! ## C2: the stream decoder -/

/-- C2. For every upstream body the decoder splits on newlines, ignores
blank lines, appends in input order the JSON-decoded payload of each `a0:`
line (skipping without aborting those whose payload is not valid JSON),
takes the finish reason from the `finishReason` field of the JSON object on
`ad:` lines and ignores other prefixes; and the concrete two-line
`a0:"Hello"` / `ad:...stop...` stream yields text `Hello` and finish
reason `stop`. -/
theorem claim_C2_stream_decoder (body : List Char) (st : DecodeState)
    (h : decodeStream body = .ok st) :
    st.text = ((pySplitlines body).map a0Contribution).flatten ∧
    st.finishReason = streamFinishReason (pySplitlines body) ∧
    decodeStream ("a0:\"Hello\"\nad:\x7b\"finishReason\":\"stop\"\x7d".data) =
      .ok ⟨"Hello".data, none, some (.str "stop".data)⟩ ∧
    decodeStream ("a0:notjson\na0:\"X\"".data) = .ok ⟨"X".data, none, none⟩ := by
  obtain ⟨ht, _, hf⟩ := processLines_ok_spec (pySplitlines body) initDecodeState st h
  refine ⟨by simpa [initDecodeState] using ht, ?_, rfl, rfl⟩
  simpa [initDecodeState, streamFinishReason] using hf

/-- Witness for C2 at the concrete example stream. -/
theorem claim_C2_stream_decoder_witness :
    "Hello".data =
      ((pySplitlines ("a0:\"Hello\"\nad:\x7b\"finishReason\":\"stop\"\x7d".data)).map
        a0Contribution).flatten ∧
    some (Json.str "stop".data) =
      streamFinishReason
        (pySplitlines ("a0:\"Hello\"\nad:\x7b\"finishReason\":\"stop\"\x7d".data)) := by
  have h := claim_C2_stream_decoder
    ("a0:\"Hello\"\nad:\x7b\"finishReason\":\"stop\"\x7d".data)
    ⟨"Hello".data, none, some (.str "stop".data)⟩ rfl
  exact ⟨h.1, h.2.1⟩

/-! ## C3: empty accumulated text and the `a3:` error candidate -/

/-- C3. When the decoder exhausts its input with empty accumulated text the
request fails with HTTP 502 whose detail carries the captured `a3:` message
(payload JSON-decoded, or raw text when decoding fails) when one exists and
the generic empty-response message otherwise; with non-empty accumulated
text the request succeeds and returns the text trimmed of surrounding
whitespace. -/
theorem claim_C3_empty_response (body : List Char) (st : DecodeState)
    (h : decodeStream body = .ok st) :
    st.errorMessage = streamErrorMessage (pySplitlines body) ∧
    (st.text = [] →
      upstreamExchange (.ok body) = .error (.upstreamDecode st.errorMessage) ∧
      (ApiError.upstreamDecode st.errorMessage).httpStatus = 502) ∧
    (st.text ≠ [] →
      upstreamExchange (.ok body) = .ok st ∧
      ∀ ctx name conv prompt,
        (mkCompletion ctx name conv prompt st).choices.map Choice.content =
          [pyStrip st.text]) := by
  obtain ⟨_, he, _⟩ := processLines_ok_spec (pySplitlines body) initDecodeState st h
  refine ⟨by simpa [initDecodeState, streamErrorMessage] using he, ?_, ?_⟩
  · intro hempty
    constructor
    · simp [upstreamExchange, h, hempty]
    · rfl
  · intro hne
    constructor
    · simp [upstreamExchange, h, hne]
    · intro ctx name conv prompt
      simp [mkCompletion]

/-- Witness for C3: a stream carrying only `a3:"boom"` fails with the 502
error carrying `boom`, and an empty body fails with the generic 502. -/
theorem claim_C3_empty_response_witness :
    upstreamExchange (.ok ("a3:\"boom\"".data)) =
      .error (.upstreamDecode (some (.parsed (.str "boom".data)))) ∧
    upstreamExchange (.ok ([] : List Char)) = .error (.upstreamDecode none) := by
  have h1 := claim_C3_empty_response ("a3:\"boom\"".data)
    ⟨[], some (.parsed (.str "boom".data)), none⟩ rfl
  have h2 := claim_C3_empty_response [] ⟨[], none, none⟩ rfl
  exact ⟨(h1.2.1 rfl).1, (h2.2.1 rfl).1⟩

/-! ## Endpoint inversion lemmas -/

theorem upstreamExchange_ok {upstream : UpstreamResult} {dst : DecodeState}
    (h : upstreamExchange upstream = .ok dst) :
    ∃ body, upstream = .ok body ∧ decodeStream body = .ok dst ∧ dst.text ≠ [] := by
  cases upstream with
  | httpError code body => simp [upstreamExchange] at h
  | timeout => simp [upstreamExchange] at h
  | ok body =>
      refine ⟨body, rfl, ?_⟩
      simp only [upstreamExchange] at h
      cases hd : decodeStream body with
      | error e => rw [hd] at h; simp at h
      | ok d =>
          rw [hd] at h
          by_cases hemp : d.text = []
          · simp [hemp] at h
          · simp only [hemp, if_neg, ite_false] at h
            simp at h
            subst h
            exact ⟨rfl, hemp⟩

theorem api_error_sessions (ctx : EndpointCtx) (req : ChatRequest)
    (upstream : UpstreamResult) (st : ServerState) (e : ApiError) (st' : ServerState)
    (hr : api_chat_completions ctx req upstream st = (.error e, st')) :
    st'.sessions = st.sessions := by
  simp only [api_chat_completions] at hr
  repeat' split at hr
  all_goals
    simp only [Prod.mk.injEq] at hr
  all_goals
    obtain ⟨h1, h2⟩ := hr
  all_goals
    subst h2
  all_goals first
    | rfl
    | simp at h1

theorem api_ok_spec (ctx : EndpointCtx) (req : ChatRequest)
    (upstream : UpstreamResult) (st : ServerState) (c : Completion) (st' : ServerState)
    (hr : api_chat_completions ctx req upstream st = (.ok c, st')) :
    ∃ dst, upstreamExchange upstream = .ok dst ∧
      (∀ k, k ≠ (ctx.apiKeyStr, req.conversation_id.getD ctx.genConv) →
        st'.sessions k = st.sessions k) ∧
      (st.sessions (ctx.apiKeyStr, req.conversation_id.getD ctx.genConv) = none →
        st'.sessions (ctx.apiKeyStr, req.conversation_id.getD ctx.genConv) =
          some ⟨ctx.gen 0, ctx.gen 2, none, req.model.getD ""⟩) ∧
      (∀ sess, st.sessions (ctx.apiKeyStr, req.conversation_id.getD ctx.genConv) = some sess →
        st'.sessions (ctx.apiKeyStr, req.conversation_id.getD ctx.genConv) =
          some { sess with last_message_id := ctx.gen 1 }) ∧
      c = mkCompletion ctx (req.model.getD "") (req.conversation_id.getD ctx.genConv)
            (((req.messages.getLast?).map Msg.content).getD "") dst := by
  simp only [api_chat_completions] at hr
  cases hmodel : req.model with
  | none => rw [hmodel] at hr; simp at hr
  | some name =>
      rw [hmodel] at hr
      simp only [] at hr
      by_cases hval : name = "" ∨ req.messages = []
      · rw [if_pos hval] at hr; simp at hr
      · rw [if_neg hval] at hr
        cases hfind : findModelId ctx.models name with
        | none => rw [hfind] at hr; simp at hr
        | some mid =>
            rw [hfind] at hr
            simp only [] at hr
            by_cases hmid : mid = ""
            · rw [if_pos hmid] at hr; simp at hr
            · rw [if_neg hmid] at hr
              by_cases hprompt : ((req.messages.getLast?).map Msg.content).getD "" = ""
              · rw [if_pos hprompt] at hr; simp at hr
              · rw [if_neg hprompt] at hr
                by_cases hauth : pyStrip ctx.authToken.data = []
                · rw [if_pos hauth] at hr; simp at hr
                · rw [if_neg hauth] at hr
                  rw [show (bumpStats name st).sessions = st.sessions from rfl] at hr
                  cases hsess : st.sessions (ctx.apiKeyStr, req.conversation_id.getD ctx.genConv) with
                  | none =>
                      rw [hsess] at hr
                      simp only [] at hr
                      cases hex : upstreamExchange upstream with
                      | error e => rw [hex] at hr; simp at hr
                      | ok dst =>
                          rw [hex] at hr
                          simp only [Prod.mk.injEq, Except.ok.injEq] at hr
                          obtain ⟨h1, h2⟩ := hr
                          subst h2
                          refine ⟨dst, rfl, ?_, ?_, ?_, ?_⟩
                          · intro k hk
                            simp only [if_neg hk]
                          · intro _
                            simp [hmodel]
                          · intro sess hs
                            simp at hs
                          · simp [← h1, hmodel]
                  | some sess =>
                      rw [hsess] at hr
                      simp only [] at hr
                      cases hex : upstreamExchange upstream with
                      | error e => rw [hex] at hr; simp at hr
                      | ok dst =>
                          rw [hex] at hr
                          simp only [Prod.mk.injEq, Except.ok.injEq] at hr
                          obtain ⟨h1, h2⟩ := hr
                          subst h2
                          refine ⟨dst, rfl, ?_, ?_, ?_, ?_⟩
                          · intro k hk
                            simp only [if_neg hk]
                          · intro h0
                            simp at h0
                          · intro sess1 hs
                            injection hs with hs
                            subst hs
                            simp
                          · simp [← h1, hmodel]

/-! ## C4: the session registry invariant -/

/-- C4. The session registry changes only on a successful exchange
(upstream 2xx and non-empty decoded text): then the entry for the
(api-key, conversation-id) pair is created (new conversation, assistant id
`gen 2`) or its `last_message_id` is set to the new assistant message id
(`gen 1`), all other entries unchanged; every failing request leaves the
registry untouched. -/
theorem claim_C4_session_registry (ctx : EndpointCtx) (req : ChatRequest)
    (upstream : UpstreamResult) (st : ServerState) :
    (∀ e st', api_chat_completions ctx req upstream st = (.error e, st') →
      st'.sessions = st.sessions) ∧
    (∀ c st', api_chat_completions ctx req upstream st = (.ok c, st') →
      (∃ body dst, upstream = .ok body ∧ decodeStream body = .ok dst ∧ dst.text ≠ []) ∧
      (∀ k, k ≠ (ctx.apiKeyStr, req.conversation_id.getD ctx.genConv) →
        st'.sessions k = st.sessions k) ∧
      (st.sessions (ctx.apiKeyStr, req.conversation_id.getD ctx.genConv) = none →
        st'.sessions (ctx.apiKeyStr, req.conversation_id.getD ctx.genConv) =
          some ⟨ctx.gen 0, ctx.gen 2, none, req.model.getD ""⟩) ∧
      (∀ sess, st.sessions (ctx.apiKeyStr, req.conversation_id.getD ctx.genConv) = some sess →
        st'.sessions (ctx.apiKeyStr, req.conversation_id.getD ctx.genConv) =
          some { sess with last_message_id := ctx.gen 1 })) := by
  constructor
  · intro e st' hr
    exact api_error_sessions ctx req upstream st e st' hr
  · intro c st' hr
    obtain ⟨dst, hex, hother, hnew, hupd, _⟩ := api_ok_spec ctx req upstream st c st' hr
    obtain ⟨body, hb, hd, hne⟩ := upstreamExchange_ok hex
    exact ⟨⟨body, dst, hb, hd, hne⟩, hother, hnew, hupd⟩

/-- Witness for C4: a timed-out request leaves the registry untouched; a
successful request against an empty registry records the new session keyed
by (api key, conversation id) with the generated session id and assistant
message id. -/
theorem claim_C4_session_registry_witness :
    (api_chat_completions exCtx exReq .timeout exState).2.sessions = exState.sessions ∧
    (api_chat_completions exCtx exReq (.ok exBody) exState).2.sessions
      ("sk-lmab-key", "c1") = some ⟨"uuid0", "uuid2", none, "my-model"⟩ := by
  constructor
  · exact (claim_C4_session_registry exCtx exReq .timeout exState).1
      .upstreamTimeout _ rfl
  · exact ((claim_C4_session_registry exCtx exReq (.ok exBody) exState).2
      _ _ rfl).2.2.1 rfl

/-! ## C5: the rebuilt node list -/

theorem historyLoop_eq_chain (gen : ℕ → String) (fid : Option String)
    (mid cid : String) :
    ∀ (ms : List Msg) (i : ℕ) (acc : List Node),
      historyLoop gen fid mid cid ms i acc =
        acc ++ historyChain gen fid mid cid ms i (acc.getLast?.map Node.id) := by
  intro ms
  induction ms with
  | nil => intro i acc; simp [historyLoop, historyChain]
  | cons m ms ih =>
      intro i acc
      simp only [historyLoop, historyChain]
      rw [ih]
      rw [List.getLast?_concat]
      cases hacc : acc.getLast? with
      | none => simp [mkHistoryNode, historyNodeId]
      | some prev => simp [mkHistoryNode, historyNodeId]

theorem historyChain_length (gen : ℕ → String) (fid : Option String)
    (mid cid : String) :
    ∀ (ms : List Msg) (i : ℕ) (prev : Option String),
      (historyChain gen fid mid cid ms i prev).length = ms.length := by
  intro ms
  induction ms with
  | nil => intro i prev; simp [historyChain]
  | cons m ms ih => intro i prev; simp [historyChain, ih]

theorem historyChain_id (gen : ℕ → String) (fid : Option String)
    (mid cid : String) :
    ∀ (ms : List Msg) (i : ℕ) (prev : Option String) (j : ℕ), j < ms.length →
      ((historyChain gen fid mid cid ms i prev)[j]?).map Node.id =
        some (historyNodeId gen fid (i + j)) := by
  intro ms
  induction ms with
  | nil => intro i prev j h; simp at h
  | cons m ms ih =>
      intro i prev j h
      cases j with
      | zero => simp [historyChain, mkHistoryNode]
      | succ j =>
          simp only [historyChain, List.getElem?_cons_succ]
          rw [ih (i + 1) _ j (by simpa using h)]
          congr 2
          omega

theorem historyChain_parents (gen : ℕ → String) (fid : Option String)
    (mid cid : String) :
    ∀ (ms : List Msg) (i : ℕ) (prev : Option String) (j : ℕ), j < ms.length →
      ((historyChain gen fid mid cid ms i prev)[j]?).map Node.parentMessageIds =
        some (if j = 0 then (match prev with | some p => [p] | none => [])
              else [historyNodeId gen fid (i + j - 1)]) := by
  intro ms
  induction ms with
  | nil => intro i prev j h; simp at h
  | cons m ms ih =>
      intro i prev j h
      cases j with
      | zero => simp [historyChain, mkHistoryNode]
      | succ j =>
          simp only [historyChain, List.getElem?_cons_succ]
          rw [ih (i + 1) _ j (by simpa using h)]
          by_cases hj : j = 0
          · subst hj
            simp
          · simp only [hj, if_false, Nat.succ_ne_zero, if_neg (Nat.succ_ne_zero j)]
            congr 3
            omega

theorem getElem_append_two_left (l : List Node) (x y : Node) :
    (l ++ [x, y])[l.length]? = some x := by
  rw [List.getElem?_append_right (Nat.le_refl _)]
  simp

theorem getElem_append_two_right (l : List Node) (x y : Node) :
    (l ++ [x, y])[l.length + 1]? = some y := by
  rw [List.getElem?_append_right (Nat.le_succ_of_le (Nat.le_refl _))]
  simp

/-- C5. For a request that finds an existing session, the rebuilt node list
has one node per history message plus the pending user and assistant nodes;
history node `i > 0` carries the fresh draw `gen (2 + i)` while node `0`
reuses the stored first-user-message id; each history node's
`parentMessageIds` is exactly the singleton of the preceding node's id
(empty for the first); the pending user node (`gen 0`) chains to the last
history node or, with empty history, to the stored last-message id; the
pending assistant node (`gen 1`) chains to the new user node; and the
payload is addressed to `post-to-evaluation/{session-id}`. -/
theorem claim_C5_node_list (gen : ℕ → String) (sess : Session)
    (mid prompt : String) (history : List Msg) (nodes : List Node)
    (hn : nodes = (buildExistingPayload gen sess mid prompt history).1.messages) :
    nodes.length = history.length + 2 ∧
    (∀ fid, sess.first_user_msg_id = some fid → 0 < history.length →
      (nodes[0]?).map Node.id = some fid) ∧
    (∀ i, 0 < i → i < history.length →
      (nodes[i]?).map Node.id = some (gen (2 + i))) ∧
    (0 < history.length → (nodes[0]?).map Node.parentMessageIds = some []) ∧
    (∀ i a b, i + 1 < history.length → nodes[i]? = some a → nodes[i + 1]? = some b →
      b.parentMessageIds = [a.id]) ∧
    (∃ u, nodes[history.length]? = some u ∧ u.id = gen 0 ∧ u.role = "user" ∧
      u.content = prompt ∧
      (history.length = 0 → u.parentMessageIds = [sess.last_message_id]) ∧
      (∀ a, nodes[history.length - 1]? = some a → 0 < history.length →
        u.parentMessageIds = [a.id])) ∧
    (∃ b, nodes[history.length + 1]? = some b ∧ b.id = gen 1 ∧
      b.role = "assistant" ∧ b.parentMessageIds = [gen 0]) ∧
    (buildExistingPayload gen sess mid prompt history).2 =
      "https://lmarena.ai/nextjs-api/stream/post-to-evaluation/" ++
        sess.conversation_id := by
  subst hn
  simp only [buildExistingPayload]
  rw [historyLoop_eq_chain]
  simp only [List.getLast?_nil, Option.map_none', List.nil_append]
  have hlen : (historyChain gen sess.first_user_msg_id mid
      sess.conversation_id history 0 none).length = history.length :=
    historyChain_length gen sess.first_user_msg_id mid sess.conversation_id
      history 0 none
  refine ⟨?_, ?_, ?_, ?_, ?_, ?_, ?_, ?_⟩
  · simp [hlen]
  · intro fid hfid hpos
    rw [List.getElem?_append_left (by omega)]
    rw [historyChain_id gen sess.first_user_msg_id mid sess.conversation_id
      history 0 none 0 hpos]
    simp [historyNodeId, hfid]
  · intro i h0 hi
    rw [List.getElem?_append_left (by omega)]
    rw [historyChain_id gen sess.first_user_msg_id mid sess.conversation_id
      history 0 none i hi]
    simp [historyNodeId, h0]
  · intro hpos
    rw [List.getElem?_append_left (by omega)]
    rw [historyChain_parents gen sess.first_user_msg_id mid sess.conversation_id
      history 0 none 0 hpos]
    simp
  · intro i a b hi ha hb
    rw [List.getElem?_append_left (by omega)] at ha
    rw [List.getElem?_append_left (by omega)] at hb
    have hia := historyChain_id gen sess.first_user_msg_id mid
      sess.conversation_id history 0 none i (by omega)
    have hpb := historyChain_parents gen sess.first_user_msg_id mid
      sess.conversation_id history 0 none (i + 1) hi
    rw [ha] at hia
    rw [hb] at hpb
    simp only [Option.map_some', Option.some.injEq] at hia hpb
    rw [hpb, hia]
    have harg : 0 + (i + 1) - 1 = 0 + i := by omega
    simp [harg]
  · refine ⟨_, by rw [← hlen]; exact getElem_append_two_left _ _ _, rfl, rfl, rfl,
      ?_, ?_⟩
    · intro h0
      have hch : historyChain gen sess.first_user_msg_id mid
          sess.conversation_id history 0 none = [] :=
        List.length_eq_zero.mp (by omega)
      simp [hch]
    · intro a ha hpos
      rw [List.getElem?_append_left (by omega)] at ha
      have hgl : (historyChain gen sess.first_user_msg_id mid
          sess.conversation_id history 0 none).getLast? = some a := by
        rw [List.getLast?_eq_getElem?, hlen]
        exact ha
      simp [hgl]
  · exact ⟨_, by rw [← hlen]; exact getElem_append_two_right _ _ _, rfl, rfl, rfl⟩
  · trivial

/-- Witness for C5 at a concrete two-message history: the first rebuilt
node reuses the stored first-user-message id, the second carries the fresh
draw `gen 3`, and the pending user node carries `gen 0`. -/
theorem claim_C5_node_list_witness :
    ((buildExistingPayload (fun n => "uuid" ++ toString n)
        ⟨"up-conv", "last-id", some "first-id", "my-model"⟩ "model-id-1" "q2"
        [⟨"user", "q1"⟩, ⟨"assistant", "a1"⟩]).1.messages[0]?).map Node.id =
      some "first-id" ∧
    ((buildExistingPayload (fun n => "uuid" ++ toString n)
        ⟨"up-conv", "last-id", some "first-id", "my-model"⟩ "model-id-1" "q2"
        [⟨"user", "q1"⟩, ⟨"assistant", "a1"⟩]).1.messages[1]?).map Node.id =
      some "uuid3" ∧
    ((buildExistingPayload (fun n => "uuid" ++ toString n)
        ⟨"up-conv", "last-id", some "first-id", "my-model"⟩ "model-id-1" "q2"
        [⟨"user", "q1"⟩, ⟨"assistant", "a1"⟩]).1.messages[2]?).map Node.id =
      some "uuid0" := by
  have h := claim_C5_node_list (fun n => "uuid" ++ toString n)
    ⟨"up-conv", "last-id", some "first-id", "my-model"⟩ "model-id-1" "q2"
    [⟨"user", "q1"⟩, ⟨"assistant", "a1"⟩] _ rfl
  refine ⟨h.2.1 "first-id" rfl (by decide), h.2.2.1 1 (by decide) (by decide), ?_⟩
  obtain ⟨u, hu, hid, _⟩ := h.2.2.2.2.2.1
  norm_num at hu
  rw [hu]
  simp only [Option.map_some', Option.some.injEq]
  rw [hid]
  decide

/-! ## C6: model resolution (corrected) -/

/-- Counterexample to C6 as stated: a request whose model name is the empty
string matches no catalog entry, yet it fails with BadRequest (HTTP 400),
not ModelNotFound (HTTP 404) — the falsy-model check fires first. -/
theorem claim_C6_counterexample :
    (api_chat_completions exCtx
        { model := some "", messages := [⟨"user", "hi"⟩],
          conversation_id := some "c1" } (.ok exBody) exState).1 =
      .error (.badRequest "Missing model or messages in request body") ∧
    (ApiError.badRequest "Missing model or messages in request body").httpStatus
      = 400 ∧
    (∀ m ∈ exCatalog, ¬ m.publicName = some "") := by
  exact ⟨rfl, rfl, by decide⟩

/-- C6 (amended). For every request with a non-empty model name and a
non-empty message list, the name resolves by exact match on the catalog's
`publicName` (the first matching entry's id wins); if no entry matches, the
request fails with ModelNotFound (HTTP 404) and the result does not depend
on the upstream (no upstream call); an empty model name fails with
BadRequest (HTTP 400) instead. -/
theorem claim_C6_model_resolution (ctx : EndpointCtx) (req : ChatRequest)
    (upstream upstream' : UpstreamResult) (st : ServerState) (name : String)
    (hm : req.model = some name) (hne : name ≠ "") (hmsg : req.messages ≠ []) :
    ((∀ m ∈ ctx.models, m.publicName ≠ some name) →
      findModelId ctx.models name = none ∧
      api_chat_completions ctx req upstream st =
        (.error (.modelNotFound name), st) ∧
      api_chat_completions ctx req upstream st =
        api_chat_completions ctx req upstream' st ∧
      (ApiError.modelNotFound name).httpStatus = 404) ∧
    (∀ ms₁ m ms₂, ctx.models = ms₁ ++ m :: ms₂ →
      (∀ m' ∈ ms₁, m'.publicName ≠ some name) → m.publicName = some name →
      findModelId ctx.models name = m.id) ∧
    (∀ req2 : ChatRequest, req2.model = some "" →
      (api_chat_completions ctx req2 upstream st).1 =
        .error (.badRequest "Missing model or messages in request body")) := by
  have hfind : ∀ (ms : List ModelRecord), (∀ m ∈ ms, m.publicName ≠ some name) →
      findModelId ms name = none := by
    intro ms
    induction ms with
    | nil => intro _; rfl
    | cons m ms ih =>
        intro hno
        have hm' : ¬ m.publicName = some name := hno m (by simp)
        simp only [findModelId, if_neg hm']
        exact ih (fun m' hm'' => hno m' (by simp [hm'']))
  refine ⟨?_, ?_, ?_⟩
  · intro hno
    have h1 : findModelId ctx.models name = none := hfind ctx.models hno
    have h2 : api_chat_completions ctx req upstream st =
        (.error (.modelNotFound name), st) := by
      simp only [api_chat_completions, hm, h1]
      rw [if_neg (by simp [hne, hmsg])]
    have h3 : api_chat_completions ctx req upstream' st =
        (.error (.modelNotFound name), st) := by
      simp only [api_chat_completions, hm, h1]
      rw [if_neg (by simp [hne, hmsg])]
    exact ⟨h1, h2, by rw [h2, h3], rfl⟩
  · intro ms₁ m ms₂ hms hno hm'
    rw [hms]
    clear hms
    induction ms₁ with
    | nil => simp [findModelId, hm']
    | cons m1 ms ih =>
        have h1 : ¬ m1.publicName = some name := hno m1 (by simp)
        simp only [List.cons_append, findModelId, if_neg h1]
        exact ih (fun m' hm'' => hno m' (by simp [hm'']))
  · intro req2 hm2
    simp [api_chat_completions, hm2]

/-- Witness for C6 (amended): a request for the unknown name `nope`
against the example catalog fails with 404 without consulting upstream. -/
theorem claim_C6_model_resolution_witness :
    (api_chat_completions exCtx
        { model := some "nope", messages := [⟨"user", "hi"⟩],
          conversation_id := some "c1" } (.ok exBody) exState).1 =
      .error (.modelNotFound "nope") ∧
    findModelId exCatalog "my-model" = some "model-id-1" := by
  have h := claim_C6_model_resolution exCtx
    { model := some "nope", messages := [⟨"user", "hi"⟩],
      conversation_id := some "c1" }
    (.ok exBody) .timeout exState "nope" rfl (by decide) (by decide)
  have h1 := (h.1 (by decide)).2.1
  have hres := claim_C6_model_resolution exCtx exReq (.ok exBody) .timeout
    exState "my-model" rfl (by decide) (by decide)
  have h2 := hres.2.1 [] ⟨some "model-id-1", some "my-model"⟩ [] rfl
    (by intro m' hm'; simp at hm') rfl
  exact ⟨by rw [h1], h2⟩

/-! ## C7: the completion object (corrected) -/

/-- Counterexample to C7 as stated: with upstream text `"Hi "` (trailing
space) the returned content is the trimmed `"Hi"` while
`usage.completion_tokens` is 3, the length of the untrimmed text — so
`completion_tokens` does not equal the character count of the returned
content, and the content is not the untrimmed decoded text either. -/
theorem claim_C7_counterexample :
    ∃ c, (api_chat_completions exCtx exReq (.ok exBody) exState).1 = .ok c ∧
      c.choices.map Choice.content = ["Hi".data] ∧
      c.usage.completion_tokens = 3 ∧
      c.usage.completion_tokens ≠ ("Hi".data).length ∧
      c.choices.map Choice.content ≠ ["Hi ".data] := by
  exact ⟨_, rfl, rfl, rfl, by decide, by decide⟩

/-- C7 (amended). Every successful completion has exactly one choice with
role `assistant`, content the decoded text trimmed of surrounding
whitespace, literal finish reason `stop`; `usage.prompt_tokens` is the
character count of the final request message's content,
`usage.completion_tokens` the character count of the untrimmed decoded
text, and `usage.total_tokens` their sum. -/
theorem claim_C7_completion_shape (ctx : EndpointCtx) (req : ChatRequest)
    (upstream : UpstreamResult) (st : ServerState) (c : Completion)
    (st' : ServerState) (body : List Char) (dst : DecodeState)
    (hr : api_chat_completions ctx req upstream st = (.ok c, st'))
    (hb : upstream = .ok body) (hd : decodeStream body = .ok dst) :
    c.choices = [⟨0, "assistant", pyStrip dst.text, "stop"⟩] ∧
    c.usage.prompt_tokens =
      (((req.messages.getLast?).map Msg.content).getD "").length ∧
    c.usage.completion_tokens = dst.text.length ∧
    c.usage.total_tokens = c.usage.prompt_tokens + c.usage.completion_tokens := by
  obtain ⟨dst', hex, _, _, _, hc⟩ := api_ok_spec ctx req upstream st c st' hr
  obtain ⟨body', hb', hd', _⟩ := upstreamExchange_ok hex
  rw [hb] at hb'
  injection hb' with hb'
  subst hb'
  rw [hd] at hd'
  injection hd' with hd'
  subst hd'
  subst hc
  exact ⟨rfl, rfl, rfl, rfl⟩

/-- Witness for C7 (amended) on the example request: prompt `hi` (2 chars),
decoded text `Hi ` (3 chars), total 5. -/
theorem claim_C7_completion_shape_witness :
    ∃ c, (api_chat_completions exCtx exReq (.ok exBody) exState).1 = .ok c ∧
      c.usage.prompt_tokens = 2 ∧
      c.usage.completion_tokens = 3 ∧
      c.usage.total_tokens = 5 := by
  have h := claim_C7_completion_shape exCtx exReq (.ok exBody) exState _
    (api_chat_completions exCtx exReq (.ok exBody) exState).2 exBody
    ⟨"Hi ".data, none, none⟩ rfl rfl rfl
  exact ⟨_, rfl, h.2.1, h.2.2.1, h.2.2.2⟩

/-! ## C9: origin candidates (spec-modelled) -/

/-- C9. `origin-candidates(url)` is a pure function of the URL returning
exactly two entries, the detected origin first and its sibling alias
second; on the URLs exercised by the repository's test it returns exactly
the expected pairs. -/
theorem claim_C9_origin_candidates (url : Option String) :
    (arenaOriginCandidates url).length = 2 ∧
    (arenaOriginCandidates url)[0]? = some (detectArenaOrigin url) ∧
    (arenaOriginCandidates url)[1]? =
      some (siblingArenaOrigin (detectArenaOrigin url)) ∧
    arenaOriginCandidates (some "https://arena.ai/nextjs-api/sign-up") =
      ["https://arena.ai", "https://lmarena.ai"] ∧
    arenaOriginCandidates
        (some "https://lmarena.ai/nextjs-api/stream/create-evaluation") =
      ["https://lmarena.ai", "https://arena.ai"] := by
  exact ⟨rfl, rfl, rfl, rfl, rfl⟩

/-! ## C10: the usage counter (code bug) -/

/-- C10 evidence. The increment `model_usage_stats[name] += 1` is
immediately clobbered: `get_config()` rebinds the in-memory stats from the
persisted document and `save_config` then persists those unchanged values,
so after a resolvable completion request both the in-memory and the
persisted counter still hold their prior (file) values — the counter is
never incremented, contradicting the claim (and spec §4.9). -/
theorem claim_C10_stats_never_incremented (name : String) (st : ServerState) :
    (bumpStats name st).memStats = st.fileStats ∧
    (bumpStats name st).fileStats = st.fileStats ∧
    (api_chat_completions exCtx exReq (.ok exBody) exState).2.fileStats
      "my-model" = 0 ∧
    (api_chat_completions exCtx exReq (.ok exBody) exState).2.memStats
      "my-model" = 0 := by
  exact ⟨rfl, rfl, rfl, rfl⟩

/-! ## C8: uuid7 -/

theorem mul_pow_lor_eq_add : ∀ (k a b : ℕ), b < 2 ^ k →
    (a * 2 ^ k) ||| b = a * 2 ^ k + b := by
  intro k
  induction k with
  | zero =>
      intro a b hb
      have hb0 : b = 0 := by omega
      subst hb0
      simp
  | succ k ih =>
      intro a b hb
      have h1 : a * 2 ^ (k + 1) = Nat.bit false (a * 2 ^ k) := by
        simp [Nat.bit, Nat.pow_succ]
        ring
      have h2 : b = Nat.bit (decide (b % 2 = 1)) (b >>> 1) :=
        (Nat.bit_decide_mod_two_eq_one_shiftRight_one b).symm
      have hb2 : b >>> 1 < 2 ^ k := by
        rw [Nat.shiftRight_one]
        rw [Nat.pow_succ] at hb
        omega
      rw [h1]
      conv_lhs => rw [h2]
      rw [Nat.lor_bit, ih a (b >>> 1) hb2, Nat.bit_val]
      rw [Nat.bit_val] at h1
      simp only [Bool.false_or, Nat.shiftRight_one]
      rcases Nat.mod_two_eq_zero_or_one b with h | h <;> simp [h] <;> omega

theorem uuid7_int_eq (ts ra rb : ℕ) (hra : ra < 2 ^ 12) (hrb : rb < 2 ^ 62) :
    uuid7_int ts ra rb =
      (ts * 2 ^ 16 + (0x7000 + ra)) * 2 ^ 64 + (2 ^ 63 + rb) := by
  unfold uuid7_int
  have e1 : (0x7000 : ℕ) ||| ra = 0x7000 + ra := by
    have := mul_pow_lor_eq_add 12 7 ra hra
    norm_num at this ⊢
    exact this
  have e2 : (0x8000000000000000 : ℕ) ||| rb = 2 ^ 63 + rb := by
    have := mul_pow_lor_eq_add 63 1 rb (by omega)
    norm_num at this ⊢
    exact this
  rw [e1, e2, Nat.shiftLeft_eq, Nat.shiftLeft_eq]
  have e4 : ts * 2 ^ 80 ||| (0x7000 + ra) * 2 ^ 64 =
      ts * 2 ^ 80 + (0x7000 + ra) * 2 ^ 64 := by
    apply mul_pow_lor_eq_add 80 ts
    have h16 : (0x7000 + ra) < 2 ^ 16 := by norm_num at hra ⊢; omega
    calc (0x7000 + ra) * 2 ^ 64 < 2 ^ 16 * 2 ^ 64 := by
          exact Nat.mul_lt_mul_of_lt_of_le h16 (Nat.le_refl _) (by norm_num)
      _ = 2 ^ 80 := by norm_num
  rw [e4]
  have e5 : ts * 2 ^ 80 + (0x7000 + ra) * 2 ^ 64 =
      (ts * 2 ^ 16 + (0x7000 + ra)) * 2 ^ 64 := by ring
  rw [e5]
  apply mul_pow_lor_eq_add 64
  norm_num at hrb ⊢
  omega

theorem toHex_length : ∀ (w n : ℕ), (toHex w n).length = w := by
  intro w
  induction w with
  | zero => intro n; rfl
  | succ w ih => intro n; simp [toHex, ih]

theorem toHex_zero : ∀ (w : ℕ), toHex w 0 = List.replicate w '0' := by
  intro w
  induction w with
  | zero => rfl
  | succ w ih =>
      show toHex w (0 / 16) ++ [hexDigitChar (0 % 16)] = _
      rw [Nat.zero_div, ih]
      rw [List.replicate_succ' ]
      rfl

theorem minHexAux_pad : ∀ (w n fuel : ℕ), n ≤ fuel → n < 16 ^ w →
    List.replicate (w - (minHexAux fuel n).length) '0' ++ minHexAux fuel n =
      toHex w n := by
  intro w
  induction w with
  | zero =>
      intro n fuel hf hn
      have hn0 : n = 0 := by omega
      subst hn0
      cases fuel <;> simp [minHexAux, toHex]
  | succ w ih =>
      intro n fuel hf hn
      by_cases hn0 : n = 0
      · subst hn0
        cases fuel <;> simp [minHexAux, toHex_zero]
      · cases fuel with
        | zero => omega
        | succ fuel =>
            have hne : minHexAux (fuel + 1) n =
                minHexAux fuel (n / 16) ++ [hexDigitChar (n % 16)] := by
              cases n with
              | zero => omega
              | succ m => rfl
            rw [hne]
            have hdiv : n / 16 ≤ fuel := by
              have : n / 16 < n := Nat.div_lt_self (by omega) (by norm_num)
              omega
            have hbound : n / 16 < 16 ^ w := by
              rw [Nat.pow_succ, Nat.mul_comm] at hn
              exact Nat.div_lt_of_lt_mul hn
            have hih := ih (n / 16) fuel hdiv hbound
            show _ = toHex w (n / 16) ++ [hexDigitChar (n % 16)]
            rw [List.length_append, List.length_singleton]
            have harith : w + 1 - ((minHexAux fuel (n / 16)).length + 1) =
                w - (minHexAux fuel (n / 16)).length := by omega
            rw [harith, ← List.append_assoc, hih]

theorem pyHex032_eq (n : ℕ) (h : n < 16 ^ 32) : pyHex032 n = toHex 32 n := by
  unfold pyHex032
  by_cases hn : n = 0
  · subst hn
    rw [toHex_zero]
    rfl
  · simp only [hn, if_false, ite_false]
    exact minHexAux_pad 32 n n (Nat.le_refl n) h

theorem hexVal_hexDigitChar (d : ℕ) (h : d < 16) :
    hexVal (hexDigitChar d) = d := by
  interval_cases d <;> rfl

theorem toHex_split : ∀ (b a n : ℕ),
    toHex (a + b) n = toHex a (n / 16 ^ b) ++ toHex b (n % 16 ^ b) := by
  intro b
  induction b with
  | zero => intro a n; simp [toHex, Nat.mod_one]
  | succ b ih =>
      intro a n
      show toHex (a + b + 1) n = _
      show toHex (a + b) (n / 16) ++ [hexDigitChar (n % 16)] = _
      rw [ih a (n / 16)]
      have e1 : n / 16 / 16 ^ b = n / 16 ^ (b + 1) := by
        rw [Nat.div_div_eq_div_mul, Nat.pow_succ, Nat.mul_comm (16 ^ b) 16]
      have e2 : n / 16 % 16 ^ b = n % 16 ^ (b + 1) / 16 := by
        rw [Nat.pow_succ']
        rw [Nat.mod_mul_right_div_self]
      have e3 : n % 16 = n % 16 ^ (b + 1) % 16 := by
        rw [Nat.mod_mod_of_dvd]
        exact dvd_pow_self 16 (Nat.succ_ne_zero b)
      rw [e1, e2, e3]
      show _ = toHex a (n / 16 ^ (b + 1)) ++
        (toHex b (n % 16 ^ (b + 1) / 16) ++ [hexDigitChar (n % 16 ^ (b + 1) % 16)])
      rw [List.append_assoc]

theorem parseHexDigits_toHex : ∀ (w acc n : ℕ),
    (toHex w n).foldl (fun acc c => acc * 16 + hexVal c) acc =
      acc * 16 ^ w + n % 16 ^ w := by
  intro w
  induction w with
  | zero => intro acc n; simp [toHex, Nat.mod_one]
  | succ w ih =>
      intro acc n
      show ((toHex w (n / 16) ++ [hexDigitChar (n % 16)]).foldl
        (fun acc c => acc * 16 + hexVal c) acc) = _
      rw [List.foldl_append]
      simp only [List.foldl_cons, List.foldl_nil]
      rw [ih acc (n / 16)]
      rw [hexVal_hexDigitChar (n % 16) (Nat.mod_lt n (by norm_num))]
      have e1 : n % 16 ^ (w + 1) = n % 16 + 16 * (n / 16 % 16 ^ w) := by
        rw [Nat.pow_succ']
        exact Nat.mod_mul
      rw [e1, Nat.pow_succ]
      ring

theorem uuid7_fields (ts ra rb : ℕ) (hts : ts < 2 ^ 48) (hra : ra < 2 ^ 12)
    (hrb : rb < 2 ^ 62) :
    uuid7_int ts ra rb / 2 ^ 80 = ts ∧
    uuid7_int ts ra rb / 2 ^ 64 % 2 ^ 12 = ra ∧
    uuid7_int ts ra rb % 2 ^ 62 = rb ∧
    uuid7_int ts ra rb % 2 ^ 80 / 2 ^ 76 = 7 ∧
    uuid7_int ts ra rb % 2 ^ 64 / 2 ^ 60 = 8 + rb / 2 ^ 60 ∧
    rb / 2 ^ 60 < 4 ∧
    uuid7_int ts ra rb < 16 ^ 32 := by
  rw [uuid7_int_eq ts ra rb hra hrb]
  have hc16 : (0x7000 + ra) < 2 ^ 16 := by norm_num at hra ⊢; omega
  have hB : 2 ^ 63 + rb < 2 ^ 64 := by norm_num at hrb ⊢; omega
  have hA : ts * 2 ^ 16 + (0x7000 + ra) < 2 ^ 64 := by
    norm_num at hts hra ⊢
    omega
  have hdiv64 : (ts * 2 ^ 16 + (0x7000 + ra)) * 2 ^ 64 + (2 ^ 63 + rb) =
      (2 ^ 63 + rb) + 2 ^ 64 * (ts * 2 ^ 16 + (0x7000 + ra)) := by ring
  have h64 : ((ts * 2 ^ 16 + (0x7000 + ra)) * 2 ^ 64 + (2 ^ 63 + rb)) / 2 ^ 64 =
      ts * 2 ^ 16 + (0x7000 + ra) := by
    rw [hdiv64, Nat.add_mul_div_left _ _ (by norm_num), Nat.div_eq_of_lt hB]
    omega
  have hm64 : ((ts * 2 ^ 16 + (0x7000 + ra)) * 2 ^ 64 + (2 ^ 63 + rb)) % 2 ^ 64 =
      2 ^ 63 + rb := by
    rw [hdiv64, Nat.add_mul_mod_self_left, Nat.mod_eq_of_lt hB]
  refine ⟨?_, ?_, ?_, ?_, ?_, ?_, ?_⟩
  · rw [show (2 : ℕ) ^ 80 = 2 ^ 64 * 2 ^ 16 by norm_num,
      ← Nat.div_div_eq_div_mul, h64]
    rw [show ts * 2 ^ 16 + (0x7000 + ra) = (0x7000 + ra) + 2 ^ 16 * ts by ring]
    rw [Nat.add_mul_div_left _ _ (by norm_num), Nat.div_eq_of_lt hc16]
    omega
  · rw [h64]
    rw [show ts * 2 ^ 16 + (0x7000 + ra) = ra + 2 ^ 12 * (ts * 2 ^ 4 + 7) by ring_nf]
    rw [Nat.add_mul_mod_self_left, Nat.mod_eq_of_lt hra]
  · rw [show (ts * 2 ^ 16 + (0x7000 + ra)) * 2 ^ 64 + (2 ^ 63 + rb) =
      rb + 2 ^ 62 * ((ts * 2 ^ 16 + (0x7000 + ra)) * 4 + 2) by ring]
    rw [Nat.add_mul_mod_self_left, Nat.mod_eq_of_lt hrb]
  · have hr80 : (0x7000 + ra) * 2 ^ 64 + (2 ^ 63 + rb) < 2 ^ 80 := by
      norm_num at hra hrb ⊢
      omega
    rw [show (ts * 2 ^ 16 + (0x7000 + ra)) * 2 ^ 64 + (2 ^ 63 + rb) =
      ((0x7000 + ra) * 2 ^ 64 + (2 ^ 63 + rb)) + 2 ^ 80 * ts by ring]
    rw [Nat.add_mul_mod_self_left, Nat.mod_eq_of_lt hr80]
    rw [show (2 : ℕ) ^ 76 = 2 ^ 64 * 2 ^ 12 by norm_num, ← Nat.div_div_eq_div_mul]
    rw [show (0x7000 + ra) * 2 ^ 64 + (2 ^ 63 + rb) =
      (2 ^ 63 + rb) + 2 ^ 64 * (0x7000 + ra) by ring]
    rw [Nat.add_mul_div_left _ _ (by norm_num), Nat.div_eq_of_lt hB]
    rw [show (0 : ℕ) + (0x7000 + ra) = ra + 2 ^ 12 * 7 by ring_nf]
    rw [Nat.add_mul_div_left _ _ (by norm_num), Nat.div_eq_of_lt hra]
  · rw [hm64]
    rw [show (2 : ℕ) ^ 63 + rb = rb + 2 ^ 60 * 8 by ring_nf]
    rw [Nat.add_mul_div_left _ _ (by norm_num)]
    omega
  · have : rb < 2 ^ 60 * 4 := by norm_num at hrb ⊢; omega
    exact Nat.div_lt_of_lt_mul this
  · norm_num at hts hra hrb ⊢
    omega

theorem toHex_head (w m : ℕ) :
    (toHex (w + 1) m)[0]? = some (hexDigitChar (m / 16 ^ w % 16)) := by
  have h := toHex_split w 1 m
  rw [Nat.add_comm 1 w] at h
  rw [h]
  have hl : 0 < (toHex 1 (m / 16 ^ w)).length := by
    rw [toHex_length]
    norm_num
  rw [List.getElem?_append_left hl]
  show (toHex 0 (m / 16 ^ w / 16) ++ [hexDigitChar (m / 16 ^ w % 16)])[0]? = _
  rfl

theorem isHexDigit_hexDigitChar (d : ℕ) (h : d < 16) :
    isHexDigit (hexDigitChar d) = true := by
  interval_cases d <;> rfl

theorem toHex_mem_hex : ∀ (w n : ℕ) (c : Char), c ∈ toHex w n →
    isHexDigit c = true := by
  intro w
  induction w with
  | zero => intro n c hc; simp [toHex] at hc
  | succ w ih =>
      intro n c hc
      rcases List.mem_append.mp hc with h | h
      · exact ih (n / 16) c h
      · simp only [List.mem_singleton] at h
        subst h
        exact isHexDigit_hexDigitChar _ (Nat.mod_lt n (by norm_num))

theorem hexChar_ne_dash {c : Char} (h : isHexDigit c = true) :
    (!(c = '-')) = true := by
  by_cases hc : c = '-'
  · subst hc
    simp [isHexDigit] at h
  · simp [hc]

theorem filter_dash_of_hex {l : List Char}
    (h : ∀ c ∈ l, isHexDigit c = true) :
    l.filter (fun c => !(c = '-')) = l :=
  List.filter_eq_self.mpr (fun c hc => hexChar_ne_dash (h c hc))

theorem regroup32 (l : List Char) (h : l.length = 32) :
    l.take 8 ++ ((l.drop 8).take 4 ++ ((l.drop 12).take 4 ++
      ((l.drop 16).take 4 ++ (l.drop 20).take 12))) = l := by
  have e20 : (l.drop 20).take 12 = l.drop 20 := by
    apply List.take_of_length_le
    rw [List.length_drop, h]
  have e16 : (l.drop 16).take 4 ++ (l.drop 20).take 12 = l.drop 16 := by
    rw [e20]
    have h2 := List.take_append_drop 4 (l.drop 16)
    rw [List.drop_drop] at h2
    norm_num at h2
    exact h2
  have e12 : (l.drop 12).take 4 ++ ((l.drop 16).take 4 ++ (l.drop 20).take 12) =
      l.drop 12 := by
    rw [e16]
    have h2 := List.take_append_drop 4 (l.drop 12)
    rw [List.drop_drop] at h2
    norm_num at h2
    exact h2
  have e8 : (l.drop 8).take 4 ++ ((l.drop 12).take 4 ++
      ((l.drop 16).take 4 ++ (l.drop 20).take 12)) = l.drop 8 := by
    rw [e12]
    have h2 := List.take_append_drop 4 (l.drop 8)
    rw [List.drop_drop] at h2
    norm_num at h2
    exact h2
  rw [e8]
  exact List.take_append_drop 8 l

theorem uuid7_render_filter (ts ra rb : ℕ) (hts : ts < 2 ^ 48)
    (hra : ra < 2 ^ 12) (hrb : rb < 2 ^ 62) :
    (uuid7_render ts ra rb).filter (fun c => !(c = '-')) =
      toHex 32 (uuid7_int ts ra rb) := by
  have hlt : uuid7_int ts ra rb < 16 ^ 32 :=
    (uuid7_fields ts ra rb hts hra hrb).2.2.2.2.2.2
  have hhex : pyHex032 (uuid7_int ts ra rb) = toHex 32 (uuid7_int ts ra rb) :=
    pyHex032_eq _ hlt
  have hmem : ∀ c ∈ toHex 32 (uuid7_int ts ra rb), isHexDigit c = true :=
    fun c hc => toHex_mem_hex 32 _ c hc
  have hsub : ∀ (f : List Char → List Char),
      (∀ c l2, c ∈ f l2 → c ∈ l2) →
      (f (toHex 32 (uuid7_int ts ra rb))).filter (fun c => !(c = '-')) =
        f (toHex 32 (uuid7_int ts ra rb)) := by
    intro f hf
    exact filter_dash_of_hex (fun c hc => hmem c (hf c _ hc))
  unfold uuid7_render
  rw [hhex]
  simp only [List.filter_append, List.filter_cons]
  norm_num
  rw [filter_dash_of_hex (fun c hc => hmem c (List.mem_of_mem_take hc)),
    filter_dash_of_hex (fun c hc => hmem c (List.mem_of_mem_drop (List.mem_of_mem_take hc))),
    filter_dash_of_hex (fun c hc => hmem c (List.mem_of_mem_drop (List.mem_of_mem_take hc))),
    filter_dash_of_hex (fun c hc => hmem c (List.mem_of_mem_drop (List.mem_of_mem_take hc))),
    filter_dash_of_hex (fun c hc => hmem c (List.mem_of_mem_drop (List.mem_of_mem_take hc)))]
  exact regroup32 _ (toHex_length 32 _)

theorem uuid7_digits (ts ra rb : ℕ) (hts : ts < 2 ^ 48) (hra : ra < 2 ^ 12)
    (hrb : rb < 2 ^ 62) :
    parseHexDigits ((toHex 32 (uuid7_int ts ra rb)).take 12) = ts ∧
    (toHex 32 (uuid7_int ts ra rb))[12]? = some '7' ∧
    (toHex 32 (uuid7_int ts ra rb))[16]? = some (hexDigitChar (8 + rb / 2 ^ 60)) := by
  obtain ⟨h80, -, -, h76, h60, hlt4, -⟩ := uuid7_fields ts ra rb hts hra hrb
  have hs : toHex 32 (uuid7_int ts ra rb) =
      toHex 12 (uuid7_int ts ra rb / 16 ^ 20) ++
        toHex 20 (uuid7_int ts ra rb % 16 ^ 20) := by
    have := toHex_split 20 12 (uuid7_int ts ra rb)
    norm_num at this
    exact this
  have hs2 : toHex 32 (uuid7_int ts ra rb) =
      toHex 16 (uuid7_int ts ra rb / 16 ^ 16) ++
        toHex 16 (uuid7_int ts ra rb % 16 ^ 16) := by
    have := toHex_split 16 16 (uuid7_int ts ra rb)
    norm_num at this
    exact this
  refine ⟨?_, ?_, ?_⟩
  · rw [hs, List.take_left' (toHex_length 12 _)]
    unfold parseHexDigits
    rw [parseHexDigits_toHex]
    rw [show (16 : ℕ) ^ 20 = 2 ^ 80 by norm_num, h80]
    rw [show (16 : ℕ) ^ 12 = 2 ^ 48 by norm_num]
    rw [Nat.mod_eq_of_lt hts]
    omega
  · rw [hs]
    rw [List.getElem?_append_right (by rw [toHex_length])]
    rw [toHex_length]
    show (toHex (19 + 1) (uuid7_int ts ra rb % 16 ^ 20))[0]? = _
    rw [toHex_head]
    rw [show (16 : ℕ) ^ 20 = 2 ^ 80 by norm_num,
      show (16 : ℕ) ^ 19 = 2 ^ 76 by norm_num, h76]
    rfl
  · rw [hs2]
    rw [List.getElem?_append_right (by rw [toHex_length])]
    rw [toHex_length]
    show (toHex (15 + 1) (uuid7_int ts ra rb % 16 ^ 16))[0]? = _
    rw [toHex_head]
    rw [show (16 : ℕ) ^ 16 = 2 ^ 64 by norm_num,
      show (16 : ℕ) ^ 15 = 2 ^ 60 by norm_num, h60]
    rw [Nat.mod_eq_of_lt (by omega)]

theorem parse_toHex32 (n : ℕ) (h : n < 16 ^ 32) :
    parseHexDigits (toHex 32 n) = n := by
  unfold parseHexDigits
  rw [parseHexDigits_toHex 32 0 n, Nat.mod_eq_of_lt h]
  omega

/-- C8. Every generated identifier renders in the 8-4-4-4-12 hyphenated
lowercase-hex grouping; its first 12 hex digits parse back to the sampled
millisecond timestamp; the version nibble (13th hex digit) is `7`; the
variant nibble's two most significant bits are `10` (value in `[8, 12)`);
the 12-bit and 62-bit random fields are recoverable from the integer; a
later-or-equal timestamp yields a later-or-equal parsed timestamp; and
identifiers built from distinct (timestamp, randomness) triples differ. -/
theorem claim_C8_uuid7 (ts ra rb ts' ra' rb' : ℕ)
    (hts : ts < 2 ^ 48) (hra : ra < 2 ^ 12) (hrb : rb < 2 ^ 62)
    (hts' : ts' < 2 ^ 48) (hra' : ra' < 2 ^ 12) (hrb' : rb' < 2 ^ 62) :
    (∃ g1 g2 g3 g4 g5 : List Char,
      uuid7_render ts ra rb =
        g1 ++ '-' :: g2 ++ '-' :: g3 ++ '-' :: g4 ++ '-' :: g5 ∧
      g1.length = 8 ∧ g2.length = 4 ∧ g3.length = 4 ∧ g4.length = 4 ∧
      g5.length = 12 ∧
      (∀ c, (c ∈ g1 ∨ c ∈ g2 ∨ c ∈ g3 ∨ c ∈ g4 ∨ c ∈ g5) →
        isHexDigit c = true)) ∧
    parseHexDigits
      (((uuid7_render ts ra rb).filter (fun c => !(c = '-'))).take 12) = ts ∧
    ((uuid7_render ts ra rb).filter (fun c => !(c = '-')))[12]? = some '7' ∧
    (∃ v, ((uuid7_render ts ra rb).filter (fun c => !(c = '-')))[16]? =
      some (hexDigitChar v) ∧ 8 ≤ v ∧ v < 12) ∧
    uuid7_int ts ra rb / 2 ^ 64 % 2 ^ 12 = ra ∧
    uuid7_int ts ra rb % 2 ^ 62 = rb ∧
    (ts ≤ ts' →
      parseHexDigits
        (((uuid7_render ts ra rb).filter (fun c => !(c = '-'))).take 12) ≤
      parseHexDigits
        (((uuid7_render ts' ra' rb').filter (fun c => !(c = '-'))).take 12)) ∧
    ((ts, ra, rb) ≠ (ts', ra', rb') →
      uuid7_render ts ra rb ≠ uuid7_render ts' ra' rb') := by
  obtain ⟨h80, hraf, hrbf, -, -, hlt4, hlt⟩ := uuid7_fields ts ra rb hts hra hrb
  obtain ⟨h80', hraf', hrbf', -, -, -, hlt'⟩ :=
    uuid7_fields ts' ra' rb' hts' hra' hrb'
  obtain ⟨hd1, hd2, hd3⟩ := uuid7_digits ts ra rb hts hra hrb
  obtain ⟨hd1', -, -⟩ := uuid7_digits ts' ra' rb' hts' hra' hrb'
  have hfil := uuid7_render_filter ts ra rb hts hra hrb
  have hfil' := uuid7_render_filter ts' ra' rb' hts' hra' hrb'
  have hhex : pyHex032 (uuid7_int ts ra rb) = toHex 32 (uuid7_int ts ra rb) :=
    pyHex032_eq _ hlt
  refine ⟨?_, ?_, ?_, ?_, hraf, hrbf, ?_, ?_⟩
  · refine ⟨(pyHex032 (uuid7_int ts ra rb)).take 8,
      ((pyHex032 (uuid7_int ts ra rb)).drop 8).take 4,
      ((pyHex032 (uuid7_int ts ra rb)).drop 12).take 4,
      ((pyHex032 (uuid7_int ts ra rb)).drop 16).take 4,
      ((pyHex032 (uuid7_int ts ra rb)).drop 20).take 12,
      by unfold uuid7_render; exact rfl, ?_, ?_, ?_, ?_, ?_, ?_⟩
    · rw [hhex]
      simp [List.length_take, toHex_length]
    · rw [hhex]
      simp [List.length_take, List.length_drop, toHex_length]
    · rw [hhex]
      simp [List.length_take, List.length_drop, toHex_length]
    · rw [hhex]
      simp [List.length_take, List.length_drop, toHex_length]
    · rw [hhex]
      simp [List.length_take, List.length_drop, toHex_length]
    · intro c hc
      rw [hhex] at hc
      rcases hc with h | h | h | h | h
      · exact toHex_mem_hex 32 _ c (List.mem_of_mem_take h)
      all_goals
        exact toHex_mem_hex 32 _ c
          (List.mem_of_mem_drop (List.mem_of_mem_take h))
  · rw [hfil]
    exact hd1
  · rw [hfil]
    exact hd2
  · rw [hfil]
    exact ⟨8 + rb / 2 ^ 60, hd3, by omega, by omega⟩
  · intro hle
    rw [hfil, hfil', hd1, hd1']
    exact hle
  · intro hneq hr
    have hf : (uuid7_render ts ra rb).filter (fun c => !(c = '-')) =
        (uuid7_render ts' ra' rb').filter (fun c => !(c = '-')) := by rw [hr]
    rw [hfil, hfil'] at hf
    have hn : uuid7_int ts ra rb = uuid7_int ts' ra' rb' := by
      have := congrArg parseHexDigits hf
      rwa [parse_toHex32 _ hlt, parse_toHex32 _ hlt'] at this
    apply hneq
    have e1 : ts = ts' := by rw [← h80, ← h80', hn]
    have e2 : ra = ra' := by rw [← hraf, ← hraf', hn]
    have e3 : rb = rb' := by rw [← hrbf, ← hrbf', hn]
    rw [e1, e2, e3]

/-- Witness for C8 at concrete field values. -/
theorem claim_C8_uuid7_witness :
    parseHexDigits
      (((uuid7_render 1700000000000 5 7).filter (fun c => !(c = '-'))).take 12) =
      1700000000000 ∧
    ((uuid7_render 1700000000000 5 7).filter (fun c => !(c = '-')))[12]? =
      some '7' ∧
    uuid7_render 1700000000000 5 7 ≠ uuid7_render 1700000000001 5 7 := by
  have h := claim_C8_uuid7 1700000000000 5 7 1700000000001 5 7
    (by norm_num) (by norm_num) (by norm_num)
    (by norm_num) (by norm_num) (by norm_num)
  exact ⟨h.2.1, h.2.2.1, h.2.2.2.2.2.2.2 (by decide)⟩

end LMArenaBridge
